import Mathlib

/-!
# Verification of the `mplshootergame` repository against its specification

Shallow embedding of `src/shooter.py` (variant v1) and `src/shooter2.py`
(variant v2).  Python floats are modelled as exact rationals (`ℚ`), numpy
integer arrays as `ℕ → ℤ` / `ℕ → ℚ` functions together with explicit
length/cursor data, and the random draws consumed by `newpage`/`newcontent`
(numpy `uniform` / `geometric`) are supplied as oracle input streams.
Wall-clock readings (`time.clock`) are likewise an input.  The display layer
(matplotlib artists) is out of scope; `display` logic is embedded only where
a claim refers to it (the `weight > 0` visibility mask of hit markers).
-/

namespace Shooter

/-- numpy `clip(x, 0., 1.)` on a scalar. -/
def clip01 (x : ℚ) : ℚ := max 0 (min 1 x)

/-- numpy `clip` on integers, used for `clip(weight, 0, timeout)`. -/
def clipZ (lo hi x : ℤ) : ℤ := max lo (min hi x)

/-- Python `int()` applied to a nonnegative float: truncation toward zero,
which on nonnegative values is the floor. All configurations considered
have nonnegative arguments, recorded as hypotheses on the theorems. -/
def pyInt (q : ℚ) : ℤ := ⌊q⌋

/-- numpy `linspace(0., 1., N)`: entry `i` is `i/(N-1)`; `linspace(0,1,1) = [0.]`. -/
def linsp (N i : ℕ) : ℚ := if N ≤ 1 then 0 else (i : ℚ) / ((N : ℚ) - 1)

/-- State of `Avatar`: position `pos = ((x, y),)` and `xspeed = v / game.fps`
(src/shooter.py, `Avatar.__init__`). -/
structure Avatar where
  x : ℚ
  y : ℚ
  xspeed : ℚ

/-- Constructor `Avatar.__init__(game, x, y, v)` with `game.fps = fps`. -/
def Avatar.init (fps x y v : ℚ) : Avatar :=
  { x := x, y := y, xspeed := v / fps }

/-- Method `Avatar.update`: `x += tr_move * xspeed; clip(x, 0., 1., out=x)`
(src/shooter.py lines 48-51); `move` is the `tr_move` command of the game. -/
def Avatar.update (move : ℤ) (a : Avatar) : Avatar :=
  { a with x := clip01 (a.x + (move : ℚ) * a.xspeed) }

/-- Membership of index `i` in `arange(0, N, step)` for `i < N`: nonempty
only for a positive step (numpy arange with a negative step and ascending
bounds is empty; a zero step raises, which is modelled at the call site). -/
def arangeMem (step : ℤ) (i : ℕ) : Bool := 0 < step && (i : ℤ) % step == 0

/-- Oracle for one page of `Targets.newpage` draws: the three rows of
`uniform(0., 1., (3, N))`. -/
structure TPage where
  u1 : ℕ → ℚ
  u2 : ℕ → ℚ
  u3 : ℕ → ℚ

/-- State of the v1 `Targets` wave (src/shooter.py, classes `Wave` and
`Targets`).  The backing arrays of length `2*N` are modelled as total
functions; only indices below `2*N` are meaningful. -/
structure Targets where
  N : ℕ
  n : ℕ
  xpos : ℕ → ℚ
  xspeed : ℕ → ℚ
  visible : ℕ → Bool
  rate : ℚ
  width : ℚ
  score : ℕ

/-- Method `Targets.newpage`: draws `xpos, xposc, visible = uniform(0,1,(3,N))`,
returns `(xpos, (xposc-xpos)/N, visible < rate)`. -/
def Targets.newpage (rate : ℚ) (N : ℕ) (pg : TPage) :
    (ℕ → ℚ) × (ℕ → ℚ) × (ℕ → Bool) :=
  (pg.u1, fun i => (pg.u2 i - pg.u1 i) / (N : ℚ), fun i => decide (pg.u3 i < rate))

/-- Constructor of v1 `Targets` (`Wave.__init__` with `orient=1` plus the
`Targets.__init__` fields): `N = int(fps/v)`, first halves zeroed, second
halves from `newpage`, `rate = rate/fps`, cursor `n = 0`. -/
def Targets.init (fps v rate width : ℚ) (pg : TPage) : Targets :=
  let N := (⌊fps / v⌋).toNat
  let rt := rate / fps
  let np := Targets.newpage rt N pg
  { N := N
    n := 0
    xpos := fun i => if i < N then 0 else np.1 (i - N)
    xspeed := fun i => if i < N then 0 else np.2.1 (i - N)
    visible := fun i => if i < N then false else np.2.2 (i - N)
    rate := rt
    width := width
    score := 0 }

/-- Method `Wave.update` specialised to `Targets` (src/shooter.py lines
118-129 with the `Targets.leaving` hook of lines 185-187).  Returns the new
state together with the `tr_miss` information: whether `leaving` fired. -/
def Targets.update (t : Targets) (pg : TPage) : Targets × Bool :=
  let n := t.n
  let N := t.N
  let m := n + N
  let miss := t.visible n
  let score1 := if miss then t.score + 1 else t.score
  let xpos1 : ℕ → ℚ := fun i => if n ≤ i ∧ i < m then t.xpos i + t.xspeed i else t.xpos i
  if n + 1 = N then
    let np := Targets.newpage t.rate N pg
    ⟨{ t with
        n := 0
        xpos := fun i => if i < N then xpos1 (i + N) else np.1 (i - N)
        xspeed := fun i => if i < N then t.xspeed (i + N) else np.2.1 (i - N)
        visible := fun i => if i < N then t.visible (i + N) else np.2.2 (i - N)
        score := score1 }, miss⟩
  else
    ⟨{ t with
        n := n + 1
        xpos := xpos1
        score := score1 }, miss⟩

/-- State of the v1 `Bullets` wave (src/shooter.py, classes `Wave` and
`Bullets`); `rload = int(rload*game.fps)`. -/
structure Bullets where
  N : ℕ
  n : ℕ
  xpos : ℕ → ℚ
  xspeed : ℕ → ℚ
  visible : ℕ → Bool
  rload : ℤ

/-- Value of the v1 bullets state when construction does not raise: the
`Bullets.__init__` fields with the `newpage` second half. -/
def Bullets.make (fps v rload : ℚ) : Bullets :=
  let N := (⌊fps / v⌋).toNat
  let rl := pyInt (rload * fps)
  { N := N
    n := 0
    xpos := fun i => if i < N then 0 else 1/2
    xspeed := fun _ => 0
    visible := fun i => if i < N then false else arangeMem rl (i - N)
    rload := rl }

/-- Constructor of v1 `Bullets`.  `Bullets.newpage` evaluates
`arange(0, N, rload)`, which raises in numpy when the step `rload` is zero:
that raise during construction is the error case. -/
def Bullets.init (fps v rload : ℚ) : Except String Bullets :=
  if pyInt (rload * fps) = 0 then Except.error "arange: zero step"
  else Except.ok (Bullets.make fps v rload)

/-- Method `Wave.update` specialised to `Bullets` (src/shooter.py lines
118-129 with the `Bullets.entering` hook of lines 223-224): `entering(m)`
fires before the slice `[n, n+N)` advances, writing the avatar position
`ax` into slot `m = n+N`, which the advance excludes. -/
def Bullets.update (b : Bullets) (ax : ℚ) : Bullets :=
  let n := b.n
  let N := b.N
  let m := n + N
  let xpos0 : ℕ → ℚ := fun i => if i = m ∧ b.visible m then ax else b.xpos i
  let xpos1 : ℕ → ℚ := fun i => if n ≤ i ∧ i < m then xpos0 i + b.xspeed i else xpos0 i
  if n + 1 = N then
    { b with
      n := 0
      xpos := fun i => if i < N then xpos1 (i + N) else 1/2
      xspeed := fun i => if i < N then b.xspeed (i + N) else 0
      visible := fun i => if i < N then b.visible (i + N) else arangeMem b.rload (i - N) }
  else
    { b with
      n := n + 1
      xpos := xpos1 }

/-- Slice view `Wave.current`: the window `[n, n+N)`; row `r` of the window
is backing slot `n + r`.  Used below through the `n + r` indexing. -/
def Targets.curVisible (t : Targets) (r : ℕ) : Bool := t.visible (t.n + r)

/-- Count of visible entries in the current window of a v1 wave, i.e. the
number of sprites the `display` method draws for it. -/
def Targets.visibleCount (t : Targets) : ℕ :=
  ((List.range t.N).filter fun r => t.visible (t.n + r)).length

/-- Count of visible entries in the current bullets window of v1. -/
def Bullets.visibleCount (b : Bullets) : ℕ :=
  ((List.range b.N).filter fun r => b.visible (b.n + r)).length

/-- Collision test of `Hits.update` in both variants, applied to one
target/bullet pair: `(abs(dx+dv*m)<tol)&(m>=0.)&(m<=1.)`
(src/shooter.py line 293, src/shooter2.py line 271). -/
def hitTest (tol dx dv m : ℚ) : Bool :=
  decide (|dx + dv * m| < tol) && decide (0 ≤ m) && decide (m ≤ 1)

/-- State of v1 `Hits` (src/shooter.py, class `Hits`).  The marker arrays
`xpos` and `weight` have one row per target window row (`Nt` rows). -/
structure Hits where
  timeout : ℤ
  tol : ℚ
  clashmat : ℕ → ℕ → ℚ
  Nt : ℕ
  xpos : ℕ → ℚ
  weight : ℕ → ℤ
  score : ℕ

/-- Fields of `Hits` as computed by `Hits.__init__` when neither window
size is zero: `timeout = int(timeout*fps)`, `tol = targets.width/2`, and
`clashmat = (targets.ypos - bullets.ypos.T) / (1/N + 1/N1)` where
`targets.ypos = linspace(0,1,Nt)` (orient 1) and
`bullets.ypos = linspace(0,1,Nb)[::-1]` (orient -1). -/
def Hits.make (timeout fps width : ℚ) (Nt Nb : ℕ) : Hits :=
  { timeout := pyInt (timeout * fps)
    tol := width / 2
    clashmat := fun i j => (linsp Nt i - linsp Nb (Nb - 1 - j)) / (1 / (Nt : ℚ) + 1 / (Nb : ℚ))
    Nt := Nt
    xpos := fun _ => 0
    weight := fun _ => 0
    score := 0 }

/-- Constructor `Hits.__init__` (src/shooter.py line 280, textually the
same at src/shooter2.py line 257).  The clashmat denominator
`1./N + 1./N1` divides by the plain Python integers `N` (targets window
size) and `N1` (bullets window size): when either is zero the division
`1./0` raises `ZeroDivisionError`, so construction fails exactly then. -/
def Hits.init (timeout fps width : ℚ) (Nt Nb : ℕ) : Except String Hits :=
  if Nt = 0 ∨ Nb = 0 then Except.error "ZeroDivisionError"
  else Except.ok (Hits.make timeout fps width Nt Nb)

/-- Row-major list of colliding (target window row, bullet window row)
pairs computed by `Hits.update`: the numpy expression
`nonzero((abs(dx+dv*m)<tol)&(m>=0.)&(m<=1.))` over the visibility-compressed
window arrays, mapped back through `nonzero(visible)[0]` to window rows.
Compression followed by `nonzero` enumerates, in row-major order, exactly
the pairs of visible rows passing the test. -/
def Hits.pairs (h : Hits) (t : Targets) (b : Bullets) : List (ℕ × ℕ) :=
  (List.range t.N).flatMap fun i =>
    (List.range b.N).filterMap fun j =>
      if t.visible (t.n + i) && b.visible (b.n + j) &&
          hitTest h.tol (b.xpos (b.n + j) - t.xpos (t.n + i))
            (b.xspeed (b.n + j) - t.xspeed (t.n + i)) (h.clashmat i j)
      then some (i, j) else none

/-- Window rows of targets hit this frame: the set written by
`visible[s] = False` with `s = nonzero(visible)[0][nz]`. -/
def Hits.hitT (ps : List (ℕ × ℕ)) (i : ℕ) : Bool := ps.any fun p => p.1 == i

/-- Window rows of bullets hit this frame (`visible1[nonzero(visible1)[0][nz1]]`). -/
def Hits.hitB (ps : List (ℕ × ℕ)) (j : ℕ) : Bool := ps.any fun p => p.2 == j

/-- Method `Hits.update` of v1 (src/shooter.py lines 286-303).  Mutates the
target and bullet visibility through the window views, records markers,
adds `len(nz)` to the score, then ages all markers
(`weight -= 1; clip(weight, 0, timeout)`).  Returns the new hits state, the
mutated waves, and the list of colliding pairs. -/
def Hits.update (h : Hits) (t : Targets) (b : Bullets) :
    Hits × Targets × Bullets × List (ℕ × ℕ) :=
  let ps := h.pairs t b
  let t1 := { t with visible := fun k =>
    if t.n ≤ k ∧ k < t.n + t.N ∧ Hits.hitT ps (k - t.n) = true then false else t.visible k }
  let b1 := { b with visible := fun k =>
    if b.n ≤ k ∧ k < b.n + b.N ∧ Hits.hitB ps (k - b.n) = true then false else b.visible k }
  let xpos1 : ℕ → ℚ := fun r => if Hits.hitT ps r then t.xpos (t.n + r) else h.xpos r
  let weight1 : ℕ → ℤ := fun r => if Hits.hitT ps r then h.timeout else h.weight r
  ⟨{ h with
      score := h.score + ps.length
      xpos := xpos1
      weight := fun r => clipZ 0 h.timeout (weight1 r - 1) }, t1, b1, ps⟩

/-- Visibility mask of `Hits.display`: `m = self.weight > 0`
(src/shooter.py lines 308-310); row `r` is drawn iff its weight is
positive at display time, which follows the frame update. -/
def Hits.displayed (h : Hits) (r : ℕ) : Bool := decide (0 < h.weight r)

/-- Rounding of a rational to the nearest integer, ties to even: the
rounding Python string formatting applies to the decimal expansion. -/
def roundHalfEven (x : ℚ) : ℤ :=
  let f := ⌊x⌋
  let r := x - (f : ℚ)
  if r < 1/2 then f else if 1/2 < r then f + 1 else if 2 ∣ f then f else f + 1

/-- Left padding with the character `c` to width `w`. -/
def padLeft (c : Char) (w : ℕ) (s : String) : String :=
  String.mk (List.replicate (w - s.length) c) ++ s

/-- Fixed-point decimal rendering with `prec` digits, the model of the
Python format `"[:.precf]"` (with braces); exact rational rounding stands
in for the rounding of the underlying binary double. -/
def fmtFixed (prec : ℕ) (x : ℚ) : String :=
  let v := roundHalfEven (x * (10 : ℚ) ^ prec)
  let sg := if v < 0 then "-" else ""
  let a := v.natAbs
  if prec = 0 then sg ++ toString a
  else sg ++ toString (a / 10 ^ prec) ++ "." ++ padLeft '0' prec (toString (a % 10 ^ prec))

/-- Model of the Python format `"[:06.1f]"` (with braces): one decimal
digit, zero-padded to overall width 6. -/
def fmtTime (x : ℚ) : String := padLeft '0' 6 (fmtFixed 1 x)

/-- Model of the Python format `"[:.2%]"` (with braces). -/
def fmtPercent (x : ℚ) : String := fmtFixed 2 (x * 100) ++ "%"

/-- Score field of the status line (src/shooter.py line 385):
`"[:.2f]".format(100*float(hit)/float(total)) if total else "*"`. -/
def scoreField (hit total : ℕ) : String :=
  if total ≠ 0 then fmtFixed 2 (100 * (hit : ℚ) / (total : ℚ)) else "*"

/-- Configuration record of a game: `fps` plus the per-component parameter
groups of `run.py` (avatar x, y, v; targets v, rate, width; bullets v,
rload; hits timeout). -/
structure Cfg where
  fps : ℚ
  ax : ℚ
  ay : ℚ
  av : ℚ
  tv : ℚ
  rate : ℚ
  width : ℚ
  bv : ℚ
  rload : ℚ
  timeout : ℚ

/-- Full v1 game state (class `Game` of src/shooter.py with its four
components; the transient `tr_*` command/notification attributes are
modelled as per-step inputs and outputs). -/
structure GState where
  avatar : Avatar
  targets : Targets
  bullets : Bullets
  hits : Hits
  nstep : ℕ
  gameover : Bool
  status : String
  perf : ℚ

/-- Per-frame input of `Game.update`: the `tr_move` and `tr_quit` commands
set by the manager, the uniform draws consumed if a targets page turns
over, and the wall-clock duration `clock() - start` of the update. -/
structure In1 where
  move : ℤ
  quit : Bool
  page : TPage
  elapsed : ℚ

/-- Per-frame output: the `tr_miss` flag (some target left) and the
colliding pairs (`tr_hits` is their nonemptiness). -/
structure Ev1 where
  miss : Bool
  pairs : List (ℕ × ℕ)

/-- State built by `Game.__init__` when no component constructor raises:
avatar, targets, bullets, hits in that order. -/
def Game.make (c : Cfg) (pg : TPage) : GState :=
  let a := Avatar.init c.fps c.ax c.ay c.av
  let t := Targets.init c.fps c.tv c.rate c.width pg
  let b := Bullets.make c.fps c.bv c.rload
  { avatar := a
    targets := t
    bullets := b
    hits := Hits.make c.timeout c.fps c.width t.N b.N
    nstep := 0
    gameover := false
    status := "time: 0"
    perf := 0 }

/-- Constructor `Game.__init__`: builds avatar, targets, bullets, hits in
that order; construction fails iff a component constructor raises.  There
are two raise sites, hit in construction order: `arange(0, N, rload)` in
the bullets `newpage` when the integer reload step is zero (`Bullets.init`
above), and then the `1./N + 1./N1` clashmat denominator of
`Hits.__init__` when either window size `int(fps/v)` is zero
(`Hits.init` above). -/
def Game.init (c : Cfg) (pg : TPage) : Except String GState :=
  if pyInt (c.rload * c.fps) = 0 then Except.error "arange: zero step"
  else if (⌊c.fps / c.tv⌋).toNat = 0 ∨ (⌊c.fps / c.bv⌋).toNat = 0 then
    Except.error "ZeroDivisionError"
  else Except.ok (Game.make c pg)

/-- Method `Game.update` (src/shooter.py lines 375-388).  On `tr_quit` it
sets `gameover` and freezes the status to the game-over string; otherwise
it updates the components in order (avatar, targets, bullets, hits),
rebuilds the status line and the incremental-mean performance metric. -/
def Game.update (c : Cfg) (inp : In1) (s : GState) : GState × Ev1 :=
  if inp.quit then
    ⟨{ s with
        gameover := true
        status := "Game over. Efficiency (logic): " ++ fmtPercent (s.perf * c.fps) },
      { miss := false, pairs := [] }⟩
  else
    let a := s.avatar.update inp.move
    let tm := s.targets.update inp.page
    let b := s.bullets.update a.x
    let hr := s.hits.update tm.1 b
    let hit := hr.1.score
    let miss := hr.2.1.score
    let total := miss + hit
    let nstep1 := s.nstep + 1
    ⟨{ s with
        avatar := a
        targets := hr.2.1
        bullets := hr.2.2.1
        hits := hr.1
        nstep := nstep1
        status := "time: " ++ fmtTime ((nstep1 : ℚ) / c.fps) ++ "; hit: " ++ toString hit
          ++ "; miss: " ++ toString miss ++ "; score: " ++ scoreField hit total
        perf := s.perf + (inp.elapsed - s.perf) / (nstep1 : ℚ) },
      { miss := tm.2, pairs := hr.2.2.2 }⟩

/-- Iterated `Game.update` from a start state under an input stream. -/
def Game.steps (c : Cfg) (ins : ℕ → In1) (s0 : GState) : ℕ → GState
  | 0 => s0
  | k + 1 => (Game.update c (ins k) (Game.steps c ins s0 k)).1

/-- Events emitted by step `k` (the update taking state `k` to `k+1`). -/
def Game.ev (c : Cfg) (ins : ℕ → In1) (s0 : GState) (k : ℕ) : Ev1 :=
  (Game.update c (ins k) (Game.steps c ins s0 k)).2

/-- Global birth index of a v1 target sprite: page number times `N` plus
backing slot, equal to the count of target updates performed when the
sprite reaches the front of the window.  Since targets update exactly once
per executed frame, the sprite leaving at step `k` has index `nstep` of the
pre-step state, and the sprites exposed to `Hits.update` of step `k` have
indices `nstep + 1 + r` for window rows `r`. -/
def Game.missLog (c : Cfg) (ins : ℕ → In1) (s0 : GState) : ℕ → List ℕ
  | 0 => []
  | k + 1 => Game.missLog c ins s0 k ++
      (if (Game.ev c ins s0 k).miss then [(Game.steps c ins s0 k).nstep] else [])

/-- Global birth indices of targets deactivated by a collision, per run
prefix; see `Game.missLog` for the indexing. -/
def Game.hitLog (c : Cfg) (ins : ℕ → In1) (s0 : GState) : ℕ → List ℕ
  | 0 => []
  | k + 1 => Game.hitLog c ins s0 k ++
      (Game.ev c ins s0 k).pairs.map (fun p => (Game.steps c ins s0 k).nstep + 1 + p.1)

/-- Combined score `hits.score + targets.score` of a state. -/
def GState.scoreSum (s : GState) : ℕ := s.hits.score + s.targets.score

end Shooter
namespace Shooter2

open Shooter (Avatar clip01 clipZ pyInt linsp hitTest fmtTime fmtPercent scoreField Cfg)

/-- Cumulative sum used by `Targets.newcontent`:
`csum g k` is entry `k` of `cumsum([g 0, g 1, ...])`. -/
def csum (g : ℕ → ℕ) : ℕ → ℕ
  | 0 => g 0
  | k + 1 => csum g k + g (k + 1)

/-- Indexing of a numpy array of length `N` by a possibly negative integer:
a negative index wraps once.  The code only produces in-range values
(`0 ≤ r < N`), which the invariants below establish. -/
def npIdx (N : ℕ) (r : ℤ) : ℕ := if r < 0 then (r + (N : ℤ)).toNat else r.toNat

/-- Oracle for one batch of `Targets.newcontent` draws in v2: two rows of
`uniform(0., 1., (2, M-n))` and the `geometric(rate, (M-n,))` draws (the
latter are positive by definition of the geometric distribution, recorded
as a hypothesis where needed). -/
structure TDraw where
  u1 : ℕ → ℚ
  u2 : ℕ → ℚ
  g : ℕ → ℕ

/-- Shared state of the v2 `Wave` base class (src/shooter2.py, class
`Wave`).  Arrays of length `M = 2N` are total functions; `ialive` is the
length-`N` alive-index array with dense prefix `ialive[:nalive]`;
`cslice = (tbeg, tend)`. -/
structure Wave2 where
  N : ℕ
  M : ℕ
  born : ℕ → ℤ
  xpos : ℕ → ℚ
  xspeed : ℕ → ℚ
  alive : ℕ → Bool
  ialive : ℕ → ℕ
  nalive : ℕ
  nborn : ℕ
  tborn : ℤ
  tbeg : ℤ
  tend : ℤ

/-- Content generator of a subclass: `newcontent(n, t)` fills positions,
speeds and birth frames from offset data; `bornF t k` is the birth frame
written at offset `k` when regeneration starts from tail time `t`. -/
structure NC where
  bornF : ℤ → ℕ → ℤ
  xposF : ℕ → ℚ
  xspeedF : ℕ → ℚ

/-- View `Wave.current` of v2: the dense alive-index prefix `ialive[:nalive]`. -/
def Wave2.current (w : Wave2) : List ℕ := (List.range w.nalive).map w.ialive

/-- Birth frames of the currently listed sprites, in list order. -/
def Wave2.currentBorns (w : Wave2) : List ℤ := w.current.map w.born

/-- Condition of the `leaving` branch in v2 `Wave.update`: the alive list
is nonempty, its front has birth frame `tbeg`, and is still alive. -/
def Wave2.frontLeaves (w : Wave2) : Bool :=
  decide (w.nalive ≠ 0) && w.born (w.ialive 0) == w.tbeg && w.alive (w.ialive 0)

/-- Alive-index list after the compaction `a[:n] = a[s]` of v2
`Wave.update`: the front is dropped when `leaving` fired (its `s` entry was
forced to False), then dead sprites are filtered out, order preserved. -/
def Wave2.keep (w : Wave2) : List ℕ :=
  if w.frontLeaves then (w.current.drop 1).filter w.alive
  else w.current.filter w.alive

/-- Method `Wave.update` of v2 (src/shooter2.py lines 80-108), with the
subclass hooks supplied as parameters: `nc` is the `newcontent` generator,
`enterX` the effect of `entering` (bullets write the avatar position into
`xpos[nborn]`; targets pass).  The `leaving` score side effect is reported
through the returned flag.  Position advance `xpos[a] += xspeed[a]` is the
final phase, and `cslice` slides by one. -/
def Wave2.update (w : Wave2) (nc : NC) (enterX : Option ℚ) : Wave2 × Bool :=
  let keep := w.keep
  let n1 := keep.length
  let ial1 : ℕ → ℕ := fun j => if j < n1 then keep.getD j 0 else w.ialive j
  let w1 : Wave2 :=
    if w.tborn == w.tend then
      let ial2 : ℕ → ℕ := fun j => if j = n1 then w.nborn else ial1 j
      let n2 := n1 + 1
      let xposE : ℕ → ℚ := match enterX with
        | some x => fun i => if i = w.nborn then x else w.xpos i
        | none => w.xpos
      if w.nborn + 1 = w.M then
        let lst : List ℕ := (List.range n2).map ial2
        { w with
          born := fun i => if i < n2 then w.born (lst.getD i 0) else nc.bornF w.tend (i - n2)
          xpos := fun i => if i < n2 then xposE (lst.getD i 0) else nc.xposF (i - n2)
          xspeed := fun i => if i < n2 then w.xspeed (lst.getD i 0) else nc.xspeedF (i - n2)
          alive := fun _ => true
          ialive := fun j => if j < n2 then j else ial2 j
          nalive := n2
          nborn := n2
          tborn := nc.bornF w.tend 0 }
      else
        { w with
          xpos := xposE
          ialive := ial2
          nalive := n2
          nborn := w.nborn + 1
          tborn := w.born (w.nborn + 1) }
    else
      { w with
        ialive := ial1
        nalive := n1 }
  ⟨{ w1 with
      xpos := fun i => if w1.current.contains i then w1.xpos i + w1.xspeed i else w1.xpos i
      tbeg := w.tbeg + 1
      tend := w.tend + 1 }, w.frontLeaves⟩

/-- Constructor of the v2 `Wave` base: arrays filled by
`newcontent(t=N-1)`, `alive[:] = True`, `nborn = 0`, `tborn = born[0]`,
`cslice = (0, N)`. -/
def Wave2.init (N : ℕ) (nc : NC) : Wave2 :=
  { N := N
    M := 2 * N
    born := fun i => nc.bornF ((N : ℤ) - 1) i
    xpos := nc.xposF
    xspeed := nc.xspeedF
    alive := fun _ => true
    ialive := fun _ => 0
    nalive := 0
    nborn := 0
    tborn := nc.bornF ((N : ℤ) - 1) 0
    tbeg := 0
    tend := (N : ℤ) }

/-- Hook data of v2 `Targets.newcontent` (src/shooter2.py lines 157-161):
uniform start and end positions, drift `(end-start)/N`, and birth frames
`t + cumsum(geometric(rate))`. -/
def targetNC (N : ℕ) (d : TDraw) : NC :=
  { bornF := fun t k => t + (csum d.g k : ℤ)
    xposF := d.u1
    xspeedF := fun k => (d.u2 k - d.u1 k) / (N : ℚ) }

/-- Hook data of v2 `Bullets.newcontent` (src/shooter2.py lines 195-198):
fixed position 0.5, zero drift, arithmetic birth frames
`t + rload*arange(1, M-n+1)`. -/
def bulletNC (rload : ℤ) : NC :=
  { bornF := fun t k => t + rload * ((k : ℤ) + 1)
    xposF := fun _ => 1/2
    xspeedF := fun _ => 0 }

/-- State of the v2 `Targets` wave: the base wave plus the `Targets`
fields. -/
structure Targets where
  w : Wave2
  rate : ℚ
  width : ℚ
  score : ℕ

/-- Constructor of v2 `Targets`. -/
def Targets.init (fps v rate width : ℚ) (d : TDraw) : Targets :=
  let N := (⌊fps / v⌋).toNat
  { w := Wave2.init N (targetNC N d)
    rate := rate / fps
    width := width
    score := 0 }

/-- Method `Wave.update` specialised to v2 `Targets`: the `leaving` hook
(src/shooter2.py lines 163-165) adds one miss to the score. -/
def Targets.update (t : Targets) (d : TDraw) : Targets × Bool :=
  let r := t.w.update (targetNC t.w.N d) none
  ⟨{ t with
      w := r.1
      score := if r.2 then t.score + 1 else t.score }, r.2⟩

/-- State of the v2 `Bullets` wave; `rload = int(rload*game.fps)`. -/
structure Bullets where
  w : Wave2
  rload : ℤ

/-- Constructor of v2 `Bullets`: unlike v1, `newcontent` evaluates
`rload*arange(1, M+1)` whose step is the constant one, so no numpy call
can raise and construction always succeeds. -/
def Bullets.init (fps v rload : ℚ) : Bullets :=
  let N := (⌊fps / v⌋).toNat
  let rl := pyInt (rload * fps)
  { w := Wave2.init N (bulletNC rl)
    rload := rl }

/-- Method `Wave.update` specialised to v2 `Bullets`: the `entering` hook
(src/shooter2.py lines 200-201) writes the avatar position `ax`. -/
def Bullets.update (b : Bullets) (ax : ℚ) : Bullets :=
  { b with w := (b.w.update (bulletNC b.rload) (some ax)).1 }

/-- Fields of v2 `Hits`: textually the same computation as in v1
(src/shooter2.py lines 249-261). -/
def Hits.make (timeout fps width : ℚ) (Nt Nb : ℕ) : Shooter.Hits :=
  Shooter.Hits.make timeout fps width Nt Nb

/-- Constructor of v2 `Hits`: the same `1./N + 1./N1` clashmat
denominator as in v1, raising `ZeroDivisionError` when either window size
is zero (src/shooter2.py line 257). -/
def Hits.init (timeout fps width : ℚ) (Nt Nb : ℕ) : Except String Shooter.Hits :=
  Shooter.Hits.init timeout fps width Nt Nb

/-- Row-major list of colliding (target list position, bullet list
position) pairs of v2 `Hits.update` (src/shooter2.py lines 263-271):
pairs range over the dense alive lists, and the clash-matrix rows are the
age rows `born - cslice[0]` of the two sprites. -/
def Hits.pairs (h : Shooter.Hits) (t : Targets) (b : Bullets) : List (ℕ × ℕ) :=
  (List.range t.w.nalive).flatMap fun k =>
    (List.range b.w.nalive).filterMap fun k1 =>
      let i := t.w.ialive k
      let j := b.w.ialive k1
      if hitTest h.tol (b.w.xpos j - t.w.xpos i) (b.w.xspeed j - t.w.xspeed i)
          (h.clashmat (npIdx t.w.N (t.w.born i - t.w.tbeg)) (npIdx b.w.N (b.w.born j - b.w.tbeg)))
      then some (k, k1) else none

/-- Method `Hits.update` of v2 (src/shooter2.py lines 263-281): kills the
colliding sprites through `alive[ialive[nz]] = False` (leaving the alive
index lists untouched), records markers at the target age rows
`rnz = born - tbeg`, adds `len(nz)` to the score, then ages all markers.
When several pairs share a target age row they come from the same listed
sprite (rows are injective on the alive list under the invariants proved
below), so taking the first matching pair for the marker x equals the
numpy last-write semantics. -/
def Hits.update (h : Shooter.Hits) (t : Targets) (b : Bullets) :
    Shooter.Hits × Targets × Bullets × List (ℕ × ℕ) :=
  let ps := Hits.pairs h t b
  let aliveT : ℕ → Bool := fun i =>
    if ps.any (fun p => t.w.ialive p.1 == i) then false else t.w.alive i
  let aliveB : ℕ → Bool := fun j =>
    if ps.any (fun p => b.w.ialive p.2 == j) then false else b.w.alive j
  let t1 := { t with w := { t.w with alive := aliveT } }
  let b1 := { b with w := { b.w with alive := aliveB } }
  let row : ℕ × ℕ → ℕ := fun p => npIdx h.Nt (t.w.born (t.w.ialive p.1) - t.w.tbeg)
  let xpos1 : ℕ → ℚ := fun rr =>
    match ps.find? (fun p => row p == rr) with
    | some p => t.w.xpos (t.w.ialive p.1)
    | none => h.xpos rr
  let weight1 : ℕ → ℤ := fun rr => if ps.any (fun p => row p == rr) then h.timeout else h.weight rr
  ⟨{ h with
      score := h.score + ps.length
      xpos := xpos1
      weight := fun rr => clipZ 0 h.timeout (weight1 rr - 1) }, t1, b1, ps⟩

/-- Full v2 game state: the v2 `Game` class inherits the orchestration of
v1 `Game` and only swaps the targets, bullets and hits factories. -/
structure GState where
  avatar : Avatar
  targets : Targets
  bullets : Bullets
  hits : Shooter.Hits
  nstep : ℕ
  gameover : Bool
  status : String
  perf : ℚ

/-- Per-frame input of the v2 game. -/
structure In2 where
  move : ℤ
  quit : Bool
  draw : TDraw
  elapsed : ℚ

/-- Per-frame output of the v2 game. -/
structure Ev2 where
  miss : Bool
  pairs : List (ℕ × ℕ)

/-- State built by the v2 `Game.__init__` (the inherited constructor with
the v2 factories) when `Hits.__init__` does not raise. -/
def Game.make (c : Cfg) (d : TDraw) : GState :=
  let a := Avatar.init c.fps c.ax c.ay c.av
  let t := Targets.init c.fps c.tv c.rate c.width d
  let b := Bullets.init c.fps c.bv c.rload
  { avatar := a
    targets := t
    bullets := b
    hits := Hits.make c.timeout c.fps c.width t.w.N b.w.N
    nstep := 0
    gameover := false
    status := "time: 0"
    perf := 0 }

/-- Constructor of the v2 `Game`: the wave constructors never raise (the
v2 bullets `newcontent` keeps a zero reload step rather than raising),
but the shared `Hits.__init__` still raises `ZeroDivisionError` when
either window size `int(fps/v)` is zero. -/
def Game.init (c : Cfg) (d : TDraw) : Except String GState :=
  if (⌊c.fps / c.tv⌋).toNat = 0 ∨ (⌊c.fps / c.bv⌋).toNat = 0 then
    Except.error "ZeroDivisionError"
  else Except.ok (Game.make c d)

/-- Inherited method `Game.update` running the v2 components in the fixed
order avatar, targets, bullets, hits. -/
def Game.update (c : Cfg) (inp : In2) (s : GState) : GState × Ev2 :=
  if inp.quit then
    ⟨{ s with
        gameover := true
        status := "Game over. Efficiency (logic): " ++ fmtPercent (s.perf * c.fps) },
      { miss := false, pairs := [] }⟩
  else
    let a := s.avatar.update inp.move
    let tm := s.targets.update inp.draw
    let b := s.bullets.update a.x
    let hr := Hits.update s.hits tm.1 b
    let hit := hr.1.score
    let miss := hr.2.1.score
    let total := miss + hit
    let nstep1 := s.nstep + 1
    ⟨{ s with
        avatar := a
        targets := hr.2.1
        bullets := hr.2.2.1
        hits := hr.1
        nstep := nstep1
        status := "time: " ++ fmtTime ((nstep1 : ℚ) / c.fps) ++ "; hit: " ++ toString hit
          ++ "; miss: " ++ toString miss ++ "; score: " ++ scoreField hit total
        perf := s.perf + (inp.elapsed - s.perf) / (nstep1 : ℚ) },
      { miss := tm.2, pairs := hr.2.2.2 }⟩

/-- Iterated v2 `Game.update`. -/
def Game.steps (c : Cfg) (ins : ℕ → In2) (s0 : GState) : ℕ → GState
  | 0 => s0
  | k + 1 => (Game.update c (ins k) (Game.steps c ins s0 k)).1

/-- Events emitted by v2 step `k`. -/
def Game.ev (c : Cfg) (ins : ℕ → In2) (s0 : GState) (k : ℕ) : Ev2 :=
  (Game.update c (ins k) (Game.steps c ins s0 k)).2

/-- Birth frames of missed targets, per run prefix: the v2 sprite identity
is its birth frame, unique over a run because births strictly increase. -/
def Game.missLog (c : Cfg) (ins : ℕ → In2) (s0 : GState) : ℕ → List ℤ
  | 0 => []
  | k + 1 => Game.missLog c ins s0 k ++
      (if (Game.ev c ins s0 k).miss then
        [(Game.steps c ins s0 k).targets.w.tbeg] else [])

/-- Birth frames of targets deactivated by a collision, per run prefix.
The sprite hit through pair `p` of step `k` is listed at position `p.1`
after the wave updates of that step. -/
def Game.hitLog (c : Cfg) (ins : ℕ → In2) (s0 : GState) : ℕ → List ℤ
  | 0 => []
  | k + 1 => Game.hitLog c ins s0 k ++
      (let s1 := ((Game.steps c ins s0 k).targets.update (ins k).draw).1
       (Game.ev c ins s0 k).pairs.map (fun p => s1.w.born (s1.w.ialive p.1)))

/-- Combined score of a v2 state. -/
def GState.scoreSum (s : GState) : ℕ := s.hits.score + s.targets.score

/-- Freshness of a `newcontent` generator: births written from tail time
`t` start strictly after `t` and strictly increase.  The targets satisfy
it because geometric draws are positive; the bullets because the integer
reload step is positive. -/
def NC.Fresh (nc : NC) : Prop :=
  (∀ t : ℤ, t < nc.bornF t 0) ∧ (∀ (t : ℤ) (k : ℕ), nc.bornF t k < nc.bornF t (k + 1))

/-- Positivity of the geometric draws of a targets oracle (geometric
variates are at least one by definition of the distribution). -/
def TDraw.Pos (d : TDraw) : Prop := ∀ k, 1 ≤ d.g k

/-- Well-formedness invariant of a v2 wave, maintained by `Wave.update`
and untouched by the `alive`-flag writes of `Hits.update`:
the sliding window has width `N`; at most `N` sprites are listed; listed
sprites have strictly increasing birth frames inside the window, and
admitted backing indices; the admission pointer is in range, marks the
next birth time, and the not-yet-admitted births strictly increase from a
time not before the window end. -/
def Wave2.WF (w : Wave2) : Prop :=
  0 < w.N ∧
  w.M = 2 * w.N ∧
  w.tend = w.tbeg + w.N ∧
  w.nalive ≤ w.N ∧
  w.nborn < w.M ∧
  (∀ a b : ℕ, a < b → b < w.nalive → w.born (w.ialive a) < w.born (w.ialive b)) ∧
  (∀ a : ℕ, a < w.nalive → w.tbeg ≤ w.born (w.ialive a) ∧ w.born (w.ialive a) < w.tend) ∧
  (∀ a : ℕ, a < w.nalive → w.ialive a < w.nborn) ∧
  w.tend ≤ w.tborn ∧
  w.tborn = w.born w.nborn ∧
  (∀ k : ℕ, w.nborn ≤ k → k + 1 < w.M → w.born k < w.born (k + 1))

/-- Index of the `self.ialive[n] = self.nborn` write performed by
`Wave.update` when the admission branch fires, `none` otherwise: the
compacted alive count at the moment of the write. -/
def Wave2.admitIdx (w : Wave2) : Option ℕ :=
  if w.tborn == w.tend then some w.keep.length else none

/-- Well-formedness of a full v2 game state: both waves well formed and a
positive integer reload step. -/
def GState.WFstate (s : GState) : Prop :=
  Wave2.WF s.targets.w ∧ Wave2.WF s.bullets.w ∧ 1 ≤ s.bullets.rload

end Shooter2

namespace ShooterEx

open Shooter Shooter2

/-- Concrete draw page: all uniform draws 1/2 or 0 (targets all visible,
all spawned mid-field with zero drift). -/
def exPage : TPage := { u1 := fun _ => 1/2, u2 := fun _ => 1/2, u3 := fun _ => 0 }

/-- Concrete v2 draw batch: geometric draws all 1 (one birth per frame). -/
def exDraw : TDraw := { u1 := fun _ => 1/2, u2 := fun _ => 1/2, g := fun _ => 1 }

/-- Configuration with fps=2 and windows N=2 where every fresh target
meets every fresh bullet head on (avatar parked at mid-field); the hit
timeout is one frame. -/
def exCfgHit : Cfg :=
  { fps := 2, ax := 1/2, ay := -1/20, av := 0, tv := 1, rate := 2, width := 1/10,
    bv := 1, rload := 1/2, timeout := 1/2 }

/-- Configuration like `exCfgHit` but with the avatar parked away from the
targets and a narrow width, so no collision ever happens and visible
targets leave as misses. -/
def exCfgMiss : Cfg :=
  { fps := 2, ax := 9/10, ay := -1/20, av := 0, tv := 1, rate := 2, width := 1/50,
    bv := 1, rload := 1/2, timeout := 1/2 }

/-- Input stream: never quit, no movement. -/
def exInsRun : ℕ → In1 := fun _ => { move := 0, quit := false, page := exPage, elapsed := 0 }

/-- Input stream: quit exactly at frame 2. -/
def exInsQuit : ℕ → In1 :=
  fun k => { move := 0, quit := decide (k = 2), page := exPage, elapsed := 0 }

/-- Initial v1 state of the hit scenario. -/
def exS0Hit : Shooter.GState := Shooter.Game.make exCfgHit exPage

/-- Initial v1 state of the miss scenario. -/
def exS0Miss : Shooter.GState := Shooter.Game.make exCfgMiss exPage

/-- Input stream of the v2 runs: never quit. -/
def exIns2 : ℕ → In2 := fun _ => { move := 0, quit := false, draw := exDraw, elapsed := 0 }

/-- Initial v2 state of the hit scenario. -/
def exS2Hit : Shooter2.GState := Shooter2.Game.make exCfgHit exDraw

/-- Initial v2 state of the miss scenario. -/
def exS2Miss : Shooter2.GState := Shooter2.Game.make exCfgMiss exDraw

/-- Hand-built one-slot v1 targets wave: a single visible target parked at
mid-field with no drift (the kind of window the game reaches when a page
of visible targets has just been swapped in). -/
def exT1 : Shooter.Targets :=
  { N := 1, n := 0, xpos := fun _ => 1/2, xspeed := fun _ => 0,
    visible := fun _ => true, rate := 1, width := 1/10, score := 0 }

/-- Hand-built one-slot v1 bullets wave with a visible bullet at the same
horizontal position as the target of `exT1`. -/
def exB1 : Shooter.Bullets :=
  { N := 1, n := 0, xpos := fun _ => 1/2, xspeed := fun _ => 0,
    visible := fun _ => true, rload := 1 }

/-- Hand-built one-slot v1 bullets wave with no visible bullet. -/
def exB1dark : Shooter.Bullets :=
  { N := 1, n := 0, xpos := fun _ => 1/2, xspeed := fun _ => 0,
    visible := fun _ => false, rload := 1 }

/-- The v1 hits state as constructed for one-slot waves with width 1/10
and a timeout parameter of half a second at two frames per second, giving
an integer timeout of one frame. -/
def exH1 : Shooter.Hits := Shooter.Hits.make (1/2) 2 (1/10) 1 1

/-- Hand-built v1 game state about to record a miss: a visible target at
the window front, no visible bullet, zero scores. -/
def exG1 : Shooter.GState :=
  { avatar := { x := 9/10, y := -1/20, xspeed := 0 }
    targets := exT1
    bullets := exB1dark
    hits := exH1
    nstep := 0
    gameover := false
    status := "time: 0"
    perf := 0 }

/-- Hand-built v1 game state about to record a collision: a visible
target and a visible bullet both mid-field in one-slot windows, with the
avatar parked mid-field. -/
def exG2 : Shooter.GState :=
  { avatar := { x := 1/2, y := -1/20, xspeed := 0 }
    targets := exT1
    bullets := exB1
    hits := exH1
    nstep := 0
    gameover := false
    status := "time: 0"
    perf := 0 }

/-- Hand-built well-formed v2 wave whose single listed sprite (backing
index 1, birth frame 1) has been deactivated by a hit. -/
def exW : Shooter2.Wave2 :=
  { N := 2, M := 4, born := fun i => (i : ℤ), xpos := fun _ => 0, xspeed := fun _ => 0,
    alive := fun i => decide (i ≠ 1), ialive := fun _ => 1, nalive := 1, nborn := 2,
    tborn := 2, tbeg := 0, tend := 2 }

/-- Non-quit input of the hand-built scenarios. -/
def exInF : In1 := { move := 0, quit := false, page := exPage, elapsed := 0 }

/-- Quit input of the hand-built scenarios. -/
def exInT : In1 := { move := 0, quit := true, page := exPage, elapsed := 0 }

end ShooterEx


namespace Shooter

theorem clip01_nonneg (x : ℚ) : 0 ≤ clip01 x := le_max_left 0 _

theorem clip01_le_one (x : ℚ) : clip01 x ≤ 1 :=
  max_le zero_le_one (min_le_left 1 x)

theorem Avatar.update_x (move : ℤ) (a : Avatar) :
    (a.update move).x = clip01 (a.x + (move : ℚ) * a.xspeed) := rfl

end Shooter

/-- C8.  For every sequence of move commands in -2..2, each
`Avatar.update` performs `x += moveCommand*xspeed` followed by clamping to
`[0,1]` (the definition `Shooter.Avatar.update` and the lemma
`Shooter.Avatar.update_x`), so after every update — in particular after the
last one of any nonempty command sequence — the avatar position lies in
`[0,1]` inclusive. -/
theorem C8_avatar_clamp (a : Shooter.Avatar) (moves : List ℤ)
    (_hm : ∀ mv ∈ moves, mv = -2 ∨ mv = -1 ∨ mv = 0 ∨ mv = 1 ∨ mv = 2)
    (hne : moves ≠ []) :
    0 ≤ (moves.foldl (fun st mv => Shooter.Avatar.update mv st) a).x ∧
      (moves.foldl (fun st mv => Shooter.Avatar.update mv st) a).x ≤ 1 := by
  clear _hm
  induction moves generalizing a with
  | nil => exact absurd rfl hne
  | cons mv rest ih =>
    cases rest with
    | nil =>
      simpa [Shooter.Avatar.update] using
        ⟨Shooter.clip01_nonneg _, Shooter.clip01_le_one _⟩
    | cons mv2 rest2 =>
      exact ih (Shooter.Avatar.update mv a) (by simp)

/-- Witness for C8 at a concrete input: one boost-right command applied to
an avatar that starts outside the playfield. -/
theorem C8_avatar_clamp_witness :
    0 ≤ ([2].foldl (fun st mv => Shooter.Avatar.update mv st)
        { x := 5, y := 0, xspeed := 1 : Shooter.Avatar }).x ∧
      ([2].foldl (fun st mv => Shooter.Avatar.update mv st)
        { x := 5, y := 0, xspeed := 1 : Shooter.Avatar }).x ≤ 1 :=
  C8_avatar_clamp { x := 5, y := 0, xspeed := 1 } [2] (by decide) (by simp)

/-- C1.  In `Hits.update` of both variants, a collision is declared for an
exposed target/bullet pair iff the row coincidence time `m` satisfies
`0 ≤ m ≤ 1` (inclusive) and `|dx + dv*m| < tol` strictly, with
`tol = width/2` fixed at construction: the first conjunct characterises
the shared boolean test, the second the constructed tolerance, and the
last two characterise membership in the per-frame collision pair lists of
v1 and v2. -/
theorem C1_collision_rule :
    (∀ tol dx dv m : ℚ,
      Shooter.hitTest tol dx dv m = true ↔ 0 ≤ m ∧ m ≤ 1 ∧ |dx + dv * m| < tol) ∧
    (∀ timeout fps width : ℚ, ∀ Nt Nb : ℕ,
      (Shooter.Hits.make timeout fps width Nt Nb).tol = width / 2 ∧
      (Shooter2.Hits.make timeout fps width Nt Nb).tol = width / 2) ∧
    (∀ (h : Shooter.Hits) (t : Shooter.Targets) (b : Shooter.Bullets) (i j : ℕ),
      (i, j) ∈ h.pairs t b ↔
        i < t.N ∧ j < b.N ∧ t.visible (t.n + i) = true ∧ b.visible (b.n + j) = true ∧
          0 ≤ h.clashmat i j ∧ h.clashmat i j ≤ 1 ∧
          |(b.xpos (b.n + j) - t.xpos (t.n + i)) +
            (b.xspeed (b.n + j) - t.xspeed (t.n + i)) * h.clashmat i j| < h.tol) ∧
    (∀ (h : Shooter.Hits) (t : Shooter2.Targets) (b : Shooter2.Bullets) (k k1 : ℕ),
      (k, k1) ∈ Shooter2.Hits.pairs h t b ↔
        k < t.w.nalive ∧ k1 < b.w.nalive ∧
          0 ≤ h.clashmat (Shooter2.npIdx t.w.N (t.w.born (t.w.ialive k) - t.w.tbeg))
              (Shooter2.npIdx b.w.N (b.w.born (b.w.ialive k1) - b.w.tbeg)) ∧
          h.clashmat (Shooter2.npIdx t.w.N (t.w.born (t.w.ialive k) - t.w.tbeg))
              (Shooter2.npIdx b.w.N (b.w.born (b.w.ialive k1) - b.w.tbeg)) ≤ 1 ∧
          |(b.w.xpos (b.w.ialive k1) - t.w.xpos (t.w.ialive k)) +
            (b.w.xspeed (b.w.ialive k1) - t.w.xspeed (t.w.ialive k)) *
              h.clashmat (Shooter2.npIdx t.w.N (t.w.born (t.w.ialive k) - t.w.tbeg))
                (Shooter2.npIdx b.w.N (b.w.born (b.w.ialive k1) - b.w.tbeg))| < h.tol) := by
  refine ⟨?_, ?_, ?_, ?_⟩
  · intro tol dx dv m
    simp only [Shooter.hitTest, Bool.and_eq_true, decide_eq_true_eq]
    tauto
  · intro timeout fps width Nt Nb
    exact ⟨rfl, rfl⟩
  · intro h t b i j
    simp only [Shooter.Hits.pairs, List.mem_flatMap, List.mem_range, List.mem_filterMap,
      Option.ite_none_right_eq_some, Option.some.injEq, Prod.mk.injEq, Bool.and_eq_true,
      Shooter.hitTest, decide_eq_true_eq]
    constructor
    · rintro ⟨a, ha, a1, ha1, ⟨⟨hv, hv1⟩, ⟨habs, hm0⟩, hm1⟩, rfl, rfl⟩
      exact ⟨ha, ha1, hv, hv1, hm0, hm1, habs⟩
    · rintro ⟨hi, hj, hv, hv1, hm0, hm1, habs⟩
      exact ⟨i, hi, j, hj, ⟨⟨hv, hv1⟩, ⟨habs, hm0⟩, hm1⟩, rfl, rfl⟩
  · intro h t b k k1
    simp only [Shooter2.Hits.pairs, List.mem_flatMap, List.mem_range, List.mem_filterMap,
      Option.ite_none_right_eq_some, Option.some.injEq, Prod.mk.injEq, Bool.and_eq_true,
      Shooter.hitTest, decide_eq_true_eq]
    constructor
    · rintro ⟨a, ha, a1, ha1, ⟨⟨habs, hm0⟩, hm1⟩, rfl, rfl⟩
      exact ⟨ha, ha1, hm0, hm1, habs⟩
    · rintro ⟨hk, hk1, hm0, hm1, habs⟩
      exact ⟨k, hk, k1, hk1, ⟨⟨habs, hm0⟩, hm1⟩, rfl, rfl⟩

/-- C7.  In a non-quit `Game.update`, the status line renders the score
field through `scoreField`: when `total = hits.score + targets.score` is
zero the field is the sentinel star with no division performed, and when
`total > 0` it is `100*hit/total` rendered by the two-decimal fixed-point
format. -/
theorem C7_score_sentinel (c : Shooter.Cfg) (inp : Shooter.In1) (s : Shooter.GState)
    (hq : inp.quit = false) :
    (Shooter.Game.update c inp s).1.status =
      "time: " ++ Shooter.fmtTime (((s.nstep + 1 : ℕ) : ℚ) / c.fps) ++ "; hit: " ++
        toString (Shooter.Game.update c inp s).1.hits.score ++ "; miss: " ++
        toString (Shooter.Game.update c inp s).1.targets.score ++ "; score: " ++
        Shooter.scoreField (Shooter.Game.update c inp s).1.hits.score
          ((Shooter.Game.update c inp s).1.targets.score +
            (Shooter.Game.update c inp s).1.hits.score) ∧
    (∀ hit total : ℕ, total = 0 → Shooter.scoreField hit total = "*") ∧
    (∀ hit total : ℕ, total ≠ 0 →
      Shooter.scoreField hit total = Shooter.fmtFixed 2 (100 * (hit : ℚ) / (total : ℚ))) := by
  refine ⟨?_, ?_, ?_⟩
  · simp [Shooter.Game.update, hq]
  · intro hit total h
    simp [Shooter.scoreField, h]
  · intro hit total h
    simp [Shooter.scoreField, h]

/-- Witness for C7 at a concrete non-quit input and state: the sentinel
branch and the formatted-division branch of the score field, through the
theorem instantiated at the hand-built game state. -/
theorem C7_score_sentinel_witness :
    Shooter.scoreField 3 0 = "*" ∧
      Shooter.scoreField 3 4 = Shooter.fmtFixed 2 (100 * (3 : ℚ) / (4 : ℚ)) :=
  ⟨(C7_score_sentinel ShooterEx.exCfgMiss ShooterEx.exInF ShooterEx.exG1 rfl).2.1 3 0 rfl,
    (C7_score_sentinel ShooterEx.exCfgMiss ShooterEx.exInF ShooterEx.exG1 rfl).2.2 3 4
      (by decide)⟩

/-- Counterexample to C6: `Game.update` never consults `gameover`, so
after a quit call has set it, a further call with the quit command cleared
runs the component updates again and the scores move: from the hand-built
state with a visible target at the window front, the post-quit non-quit
call records a miss, contradicting that no score update occurs on any
subsequent call. -/
theorem C6_counterexample :
    ShooterEx.exInT.quit = true ∧
      ShooterEx.exInF.quit = false ∧
      (Shooter.Game.update ShooterEx.exCfgMiss ShooterEx.exInT ShooterEx.exG1).1.gameover
        = true ∧
      (Shooter.Game.update ShooterEx.exCfgMiss ShooterEx.exInT
        ShooterEx.exG1).1.scoreSum = 0 ∧
      (Shooter.Game.update ShooterEx.exCfgMiss ShooterEx.exInF
        (Shooter.Game.update ShooterEx.exCfgMiss ShooterEx.exInT
          ShooterEx.exG1).1).1.scoreSum = 1 := by
  refine ⟨rfl, rfl, ?_, ?_, ?_⟩
  · simp [Shooter.Game.update, ShooterEx.exInT]
  · simp [Shooter.Game.update, ShooterEx.exInT, Shooter.GState.scoreSum, ShooterEx.exG1,
      ShooterEx.exT1, ShooterEx.exH1, Shooter.Hits.make]
  · simp [Shooter.Game.update, ShooterEx.exInT, ShooterEx.exInF, Shooter.GState.scoreSum,
      ShooterEx.exG1, ShooterEx.exT1, ShooterEx.exB1dark, ShooterEx.exH1, Shooter.Hits.make,
      Shooter.Targets.update, Shooter.Bullets.update, Shooter.Hits.update, Shooter.Hits.pairs,
      Shooter.Hits.hitT, Shooter.Avatar.update, ShooterEx.exPage, List.range_succ]

/-- C6 as amended: a quit call makes `gameover` true, freezes the status
to the game-over string reporting `perf*fps`, changes no score, and is
idempotent — any further call with the quit command still set leaves the
whole state unchanged, so no score updates occur while quit stays set (the
animation loop stops calling `update` once `gameover` holds; only a call
with quit cleared would move the scores again). -/
theorem C6_amended (c : Shooter.Cfg) (inp : Shooter.In1) (s : Shooter.GState)
    (hq : inp.quit = true) :
    (Shooter.Game.update c inp s).1.gameover = true ∧
      (Shooter.Game.update c inp s).1.status =
        "Game over. Efficiency (logic): " ++ Shooter.fmtPercent (s.perf * c.fps) ∧
      (Shooter.Game.update c inp s).1.hits.score = s.hits.score ∧
      (Shooter.Game.update c inp s).1.targets.score = s.targets.score ∧
      (∀ inp2 : Shooter.In1, inp2.quit = true →
        (Shooter.Game.update c inp2 (Shooter.Game.update c inp s).1).1 =
          (Shooter.Game.update c inp s).1) := by
  refine ⟨by simp [Shooter.Game.update, hq], by simp [Shooter.Game.update, hq],
    by simp [Shooter.Game.update, hq], by simp [Shooter.Game.update, hq], ?_⟩
  intro inp2 hq2
  cases s with
  | mk av t b h nstep go st perf => simp [Shooter.Game.update, hq, hq2]

/-- Witness for C6 as amended at the hand-built state: the quit call
freezes the state and a second quit call leaves it untouched. -/
theorem C6_amended_witness :
    (Shooter.Game.update ShooterEx.exCfgMiss ShooterEx.exInT ShooterEx.exG1).1.gameover
        = true ∧
      (Shooter.Game.update ShooterEx.exCfgMiss ShooterEx.exInT ShooterEx.exG1).1.status =
        "Game over. Efficiency (logic): " ++
          Shooter.fmtPercent (ShooterEx.exG1.perf * ShooterEx.exCfgMiss.fps) ∧
      (Shooter.Game.update ShooterEx.exCfgMiss ShooterEx.exInT ShooterEx.exG1).1.hits.score
        = ShooterEx.exG1.hits.score ∧
      (Shooter.Game.update ShooterEx.exCfgMiss ShooterEx.exInT
        ShooterEx.exG1).1.targets.score = ShooterEx.exG1.targets.score ∧
      (Shooter.Game.update ShooterEx.exCfgMiss ShooterEx.exInT
        (Shooter.Game.update ShooterEx.exCfgMiss ShooterEx.exInT ShooterEx.exG1).1).1 =
        (Shooter.Game.update ShooterEx.exCfgMiss ShooterEx.exInT ShooterEx.exG1).1 := by
  have h := C6_amended ShooterEx.exCfgMiss ShooterEx.exInT ShooterEx.exG1 rfl
  exact ⟨h.1, h.2.1, h.2.2.1, h.2.2.2.1, h.2.2.2.2 ShooterEx.exInT rfl⟩

/-- C10.  A v1 `Wave.update` advances the positions only of slots
`[n, n+N)`; the sprite entering at slot `n+N` is excluded, so after the
update the bullet admitted by `entering` sits in the new window at exactly
the avatar position `ax` captured at entry — unmoved in its entry frame —
both in the ordinary case and in the page-swap case (where its backing
slot is relocated from `2N-1` to `N-1`). -/
theorem C10_entry_unmoved (b : Shooter.Bullets) (ax : ℚ)
    (hn : b.n < b.N) (hv : b.visible (b.n + b.N) = true) :
    (b.n + 1 = b.N →
      (b.update ax).n = 0 ∧
      (b.update ax).xpos (b.N - 1) = ax ∧
      b.N - 1 < 0 + b.N ∧
      (∀ i, i < b.N - 1 → (b.update ax).xpos i = b.xpos (i + b.N) + b.xspeed (i + b.N))) ∧
    (b.n + 1 ≠ b.N →
      (b.update ax).n = b.n + 1 ∧
      (b.update ax).xpos (b.n + b.N) = ax ∧
      b.n + 1 ≤ b.n + b.N ∧ b.n + b.N < b.n + 1 + b.N ∧
      (∀ i, b.n ≤ i → i < b.n + b.N → (b.update ax).xpos i = b.xpos i + b.xspeed i) ∧
      (∀ i, i < b.n ∨ b.n + b.N < i → (b.update ax).xpos i = b.xpos i)) := by
  constructor
  · intro hsw
    refine ⟨?_, ?_, ?_, ?_⟩
    · simp [Shooter.Bullets.update, hsw]
    · have h1 : b.N - 1 < b.N := by omega
      have h2 : ¬(b.n ≤ b.N - 1 + b.N ∧ b.N - 1 + b.N < b.n + b.N) := by omega
      have h3 : b.N - 1 + b.N = b.n + b.N := by omega
      simp only [Shooter.Bullets.update, if_pos hsw, if_pos h1, if_neg h2, h3, hv,
        and_true, if_pos rfl]
      have h4 : ¬(b.n ≤ b.n + b.N ∧ b.n + b.N < b.n + b.N) := by omega
      rw [if_neg h4]
      simp
    · omega
    · intro i hi
      have h1 : i < b.N := by omega
      have h2 : b.n ≤ i + b.N ∧ i + b.N < b.n + b.N := by omega
      have h3 : ¬(i + b.N = b.n + b.N) := by omega
      simp only [Shooter.Bullets.update, if_pos hsw, if_pos h1, if_pos h2]
      rw [if_neg]
      simp [h3]
  · intro hsw
    refine ⟨?_, ?_, by omega, by omega, ?_, ?_⟩
    · simp [Shooter.Bullets.update, hsw]
    · have h2 : ¬(b.n ≤ b.n + b.N ∧ b.n + b.N < b.n + b.N) := by omega
      simp only [Shooter.Bullets.update, if_neg hsw, if_neg h2, hv, and_true, if_pos rfl]
      simp
    · intro i hi1 hi2
      have h2 : b.n ≤ i ∧ i < b.n + b.N := ⟨hi1, hi2⟩
      have h3 : ¬(i = b.n + b.N) := by omega
      simp only [Shooter.Bullets.update, if_neg hsw, if_pos h2]
      rw [if_neg]
      simp [h3]
    · intro i hi
      have h2 : ¬(b.n ≤ i ∧ i < b.n + b.N) := by omega
      have h3 : ¬(i = b.n + b.N) := by omega
      simp only [Shooter.Bullets.update, if_neg hsw, if_neg h2]
      rw [if_neg]
      simp [h3]

/-- Witness for C10 at the hand-built one-slot bullets wave (the window
has one slot, the update swaps pages, and the entering bullet appears at
the avatar position 3/4 unmoved). -/
theorem C10_entry_unmoved_witness :
    (ShooterEx.exB1.update (3/4)).n = 0 ∧
      (ShooterEx.exB1.update (3/4)).xpos (ShooterEx.exB1.N - 1) = 3/4 := by
  have h := (C10_entry_unmoved ShooterEx.exB1 (3/4) (by decide) rfl).1 rfl
  exact ⟨h.1, h.2.1⟩

/-- Counterexample to C2: with an integer timeout of one frame, a real
collision (of the hand-built one-slot waves through the constructed
clash matrix) sets the marker weight to `timeout` inside `Hits.update`,
but the same update immediately ages it to zero, so the marker is not
displayed even at the collision frame itself — while the claim promises
display at frames `F..F+timeout-1`, a range containing frame F. -/
theorem C2_counterexample :
    ShooterEx.exH1.timeout = 1 ∧
      (Shooter.Hits.update ShooterEx.exH1 ShooterEx.exT1 ShooterEx.exB1).2.2.2 = [(0, 0)] ∧
      Shooter.Hits.displayed
        (Shooter.Hits.update ShooterEx.exH1 ShooterEx.exT1 ShooterEx.exB1).1 0 = false := by
  refine ⟨?_, ?_, ?_⟩
  · show Shooter.pyInt (1/2 * 2) = 1
    norm_num [Shooter.pyInt]
  · norm_num [Shooter.Hits.update, Shooter.Hits.pairs, ShooterEx.exH1, ShooterEx.exT1,
      ShooterEx.exB1, Shooter.Hits.make, Shooter.hitTest, Shooter.linsp, List.range_succ]
    decide
  · norm_num [Shooter.Hits.displayed, Shooter.Hits.update, Shooter.Hits.pairs,
      ShooterEx.exH1, ShooterEx.exT1, ShooterEx.exB1, Shooter.Hits.make, Shooter.hitTest,
      Shooter.linsp, List.range_succ, Shooter.Hits.hitT, Shooter.clipZ, Shooter.pyInt]

namespace Shooter

theorem Game.steps_succ (c : Cfg) (ins : ℕ → In1) (s0 : GState) (n : ℕ) :
    Game.steps c ins s0 (n + 1) = (Game.update c (ins n) (Game.steps c ins s0 n)).1 := rfl

theorem Game.update_hits_timeout (c : Cfg) (inp : In1) (s : GState) :
    (Game.update c inp s).1.hits.timeout = s.hits.timeout := by
  by_cases hq : inp.quit <;> simp [Game.update, hq, Hits.update]

theorem Game.steps_hits_timeout (c : Cfg) (ins : ℕ → In1) (s0 : GState) (n : ℕ) :
    (Game.steps c ins s0 n).hits.timeout = s0.hits.timeout := by
  induction n with
  | zero => rfl
  | succ n ih => rw [Game.steps_succ, Game.update_hits_timeout, ih]

theorem Game.update_hits_weight (c : Cfg) (inp : In1) (s : GState)
    (hq : inp.quit = false) (r : ℕ) :
    (Game.update c inp s).1.hits.weight r =
      clipZ 0 s.hits.timeout
        ((if Hits.hitT (Game.update c inp s).2.pairs r then s.hits.timeout
          else s.hits.weight r) - 1) := by
  simp [Game.update, hq, Hits.update]

theorem Game.ev_pairs_of_quit (c : Cfg) (ins : ℕ → In1) (s0 : GState) (j : ℕ)
    (h : (ins j).quit = true) : (Game.ev c ins s0 j).pairs = [] := by
  simp [Game.ev, Game.update, h]

end Shooter

/-- C2 as amended: a hit marker set to `timeout` at collision frame F is
aged in the same update, so at display time (after each frame update) its
weight is `max (timeout - 1 - k) 0` at frame `F+k` (absent re-hits of its
row and further quit inputs): it is displayed at frames
`F .. F+timeout-2`, is invisible from frame `F+timeout-1` onward, and its
weight never becomes negative. -/
theorem C2_marker_decay (c : Shooter.Cfg) (ins : ℕ → Shooter.In1) (s0 : Shooter.GState)
    (F k r : ℕ) (T : ℤ)
    (hT : s0.hits.timeout = T) (hT0 : 0 ≤ T)
    (hhit : Shooter.Hits.hitT (Shooter.Game.ev c ins s0 F).pairs r = true)
    (hq : ∀ j, F < j → j ≤ F + k → (ins j).quit = false)
    (hnr : ∀ j, F < j → j ≤ F + k →
      Shooter.Hits.hitT (Shooter.Game.ev c ins s0 j).pairs r = false) :
    (Shooter.Game.steps c ins s0 (F + k + 1)).hits.weight r = max (T - 1 - (k : ℤ)) 0 ∧
      (Shooter.Hits.displayed (Shooter.Game.steps c ins s0 (F + k + 1)).hits r = true ↔
        (k : ℤ) < T - 1) ∧
      0 ≤ (Shooter.Game.steps c ins s0 (F + k + 1)).hits.weight r := by
  have hqF : (ins F).quit = false := by
    by_cases h : (ins F).quit
    · rw [Shooter.Game.ev_pairs_of_quit c ins s0 F h] at hhit
      exact absurd hhit (by simp [Shooter.Hits.hitT])
    · simpa using h
  have key : ∀ k0 : ℕ, (∀ j, F < j → j ≤ F + k0 → (ins j).quit = false) →
      (∀ j, F < j → j ≤ F + k0 →
        Shooter.Hits.hitT (Shooter.Game.ev c ins s0 j).pairs r = false) →
      (Shooter.Game.steps c ins s0 (F + k0 + 1)).hits.weight r =
        max (T - 1 - (k0 : ℤ)) 0 := by
    intro k0
    induction k0 with
    | zero =>
      intro _ _
      rw [Shooter.Game.steps_succ, Shooter.Game.update_hits_weight c (ins F) _ hqF r]
      rw [Shooter.Game.steps_hits_timeout, hT]
      have : Shooter.Hits.hitT (Shooter.Game.ev c ins s0 F).pairs r = true := hhit
      rw [Shooter.Game.ev] at this
      rw [this]
      simp only [if_true, Shooter.clipZ, max_def, min_def]
      split_ifs <;> omega
    | succ k0 ih =>
      intro hq0 hnr0
      have hstep : F + (k0 + 1) + 1 = (F + k0 + 1) + 1 := by omega
      rw [hstep, Shooter.Game.steps_succ,
        Shooter.Game.update_hits_weight c (ins (F + k0 + 1)) _
          (hq0 (F + k0 + 1) (by omega) (by omega)) r]
      rw [Shooter.Game.steps_hits_timeout, hT]
      have hh : Shooter.Hits.hitT
          (Shooter.Game.ev c ins s0 (F + k0 + 1)).pairs r = false :=
        hnr0 (F + k0 + 1) (by omega) (by omega)
      rw [Shooter.Game.ev] at hh
      rw [hh]
      have hw := ih (fun j h1 h2 => hq0 j h1 (by omega))
        (fun j h1 h2 => hnr0 j h1 (by omega))
      rw [if_neg (by simp), hw]
      simp only [Shooter.clipZ, max_def, min_def]
      split_ifs <;> push_cast <;> omega
  have hw := key k hq hnr
  refine ⟨hw, ?_, ?_⟩
  · rw [Shooter.Hits.displayed, hw]
    simp only [decide_eq_true_eq]
    omega
  · rw [hw]
    omega

/-- Witness for C2 as amended: in the hand-built collision state the hit
at frame 0 leaves, with integer timeout 1, a marker of weight
`max (1-1-0) 0 = 0`, not displayed already at the collision frame. -/
theorem C2_marker_decay_witness :
    (Shooter.Game.steps ShooterEx.exCfgHit ShooterEx.exInsRun ShooterEx.exG2
        (0 + 0 + 1)).hits.weight 0 = max ((1 : ℤ) - 1 - ((0 : ℕ) : ℤ)) 0 ∧
      (Shooter.Hits.displayed
          (Shooter.Game.steps ShooterEx.exCfgHit ShooterEx.exInsRun ShooterEx.exG2
            (0 + 0 + 1)).hits 0 = true ↔ (((0 : ℕ) : ℤ)) < (1 : ℤ) - 1) ∧
      0 ≤ (Shooter.Game.steps ShooterEx.exCfgHit ShooterEx.exInsRun ShooterEx.exG2
        (0 + 0 + 1)).hits.weight 0 :=
  C2_marker_decay ShooterEx.exCfgHit ShooterEx.exInsRun ShooterEx.exG2 0 0 0 1
    (by norm_num [ShooterEx.exG2, ShooterEx.exH1, Shooter.Hits.make, Shooter.pyInt])
    (by norm_num)
    (by norm_num [Shooter.Game.ev, Shooter.Game.steps, Shooter.Game.update,
      Shooter.Hits.hitT, Shooter.Hits.update, Shooter.Hits.pairs, ShooterEx.exG2,
      ShooterEx.exT1, ShooterEx.exB1, ShooterEx.exH1, Shooter.Hits.make, Shooter.hitTest,
      Shooter.linsp, List.range_succ, ShooterEx.exInsRun, ShooterEx.exCfgHit,
      ShooterEx.exPage, Shooter.Targets.update, Shooter.Bullets.update,
      Shooter.Avatar.update, Shooter.Targets.newpage, Shooter.clip01])
    (fun j h1 h2 => absurd h2 (by omega))
    (fun j h1 h2 => absurd h2 (by omega))

namespace Shooter2

theorem range_map_getD (l : List ℕ) :
    (List.range l.length).map (fun j => l.getD j 0) = l := by
  apply List.ext_getElem
  · simp
  · intro i h1 h2
    simp [List.getD_eq_getElem?_getD, List.getElem?_eq_getElem h2]

theorem range_map_prefix (l : List ℕ) (f : ℕ → ℕ) :
    (List.range l.length).map (fun j => if j < l.length then l.getD j 0 else f j) = l := by
  calc (List.range l.length).map (fun j => if j < l.length then l.getD j 0 else f j)
      = (List.range l.length).map (fun j => l.getD j 0) := by
        apply List.map_congr_left
        intro a ha
        rw [List.mem_range] at ha
        simp [ha]
    _ = l := range_map_getD l

theorem mem_current (w : Wave2) (x : ℕ) :
    x ∈ w.current ↔ ∃ a, a < w.nalive ∧ w.ialive a = x := by
  simp [Wave2.current]

theorem current_pairwise (w : Wave2)
    (h6 : ∀ a b : ℕ, a < b → b < w.nalive → w.born (w.ialive a) < w.born (w.ialive b)) :
    w.current.Pairwise (fun x y => w.born x < w.born y) := by
  rw [Wave2.current, List.pairwise_map]
  exact (List.pairwise_lt_range w.nalive).imp_of_mem
    (fun ha hb hlt => h6 _ _ hlt (List.mem_range.mp hb))

theorem keep_sublist (w : Wave2) : w.keep.Sublist w.current := by
  unfold Wave2.keep
  split_ifs
  · exact ((w.current.drop 1).filter_sublist).trans (w.current.drop_sublist 1)
  · exact w.current.filter_sublist

theorem keep_mem (w : Wave2) (x : ℕ) (hx : x ∈ w.keep) :
    w.alive x = true ∧ ∃ a, a < w.nalive ∧ w.ialive a = x := by
  have hmem : x ∈ w.current := (keep_sublist w).mem hx
  unfold Wave2.keep at hx
  split_ifs at hx
  · exact ⟨(List.mem_filter.mp hx).2, (mem_current w x).mp hmem⟩
  · exact ⟨(List.mem_filter.mp hx).2, (mem_current w x).mp hmem⟩

theorem keep_pairwise (w : Wave2)
    (h6 : ∀ a b : ℕ, a < b → b < w.nalive → w.born (w.ialive a) < w.born (w.ialive b)) :
    w.keep.Pairwise (fun x y => w.born x < w.born y) :=
  (current_pairwise w h6).sublist (keep_sublist w)

theorem frontLeaves_iff (w : Wave2) :
    w.frontLeaves = true ↔
      w.nalive ≠ 0 ∧ w.born (w.ialive 0) = w.tbeg ∧ w.alive (w.ialive 0) = true := by
  simp [Wave2.frontLeaves, and_assoc]

theorem current_drop_one (w : Wave2) (m : ℕ) (hm : w.nalive = m + 1) :
    w.current.drop 1 = (List.range m).map (fun b => w.ialive (b + 1)) := by
  rw [Wave2.current, hm, List.range_succ_eq_map]
  simp [List.map_map, Function.comp]

theorem keep_born_bounds (w : Wave2) (hw : w.WF) :
    ∀ x ∈ w.keep, w.tbeg + 1 ≤ w.born x ∧ w.born x < w.tend := by
  obtain ⟨hN, hM, hwin, hna, hnb, h6, h7, h8, h9, h10, h11⟩ := hw
  intro x hx
  obtain ⟨halive, a, ha, hax⟩ := keep_mem w x hx
  refine ⟨?_, hax ▸ (h7 a ha).2⟩
  unfold Wave2.keep at hx
  split_ifs at hx with hf
  · obtain ⟨m, hm⟩ : ∃ m, w.nalive = m + 1 := ⟨w.nalive - 1, by omega⟩
    have hx2 : x ∈ w.current.drop 1 := (List.mem_filter.mp hx).1
    rw [current_drop_one w m hm] at hx2
    obtain ⟨b, hb, rfl⟩ := List.mem_map.mp hx2
    rw [List.mem_range] at hb
    have h1 : w.born (w.ialive 0) < w.born (w.ialive (b + 1)) :=
      h6 0 (b + 1) (Nat.succ_pos b) (by omega)
    have h2 := (h7 0 (by omega)).1
    omega
  · rcases Nat.eq_zero_or_pos a with ha0 | hapos
    · subst ha0
      have hne : ¬(w.nalive ≠ 0 ∧ w.born (w.ialive 0) = w.tbeg ∧
          w.alive (w.ialive 0) = true) := fun hcon => hf ((frontLeaves_iff w).mpr hcon)
      have h2 := (h7 0 ha).1
      rw [hax] at hne h2
      have : w.born x ≠ w.tbeg := by
        intro heq
        exact hne ⟨by omega, heq, halive⟩
      omega
    · have h1 : w.born (w.ialive 0) < w.born (w.ialive a) := h6 0 a hapos ha
      have h2 := (h7 0 (by omega)).1
      rw [hax] at h1
      omega

theorem length_le_toNat (l : List ℤ) (lo hi : ℤ) (hp : l.Pairwise (· < ·))
    (hm : ∀ x ∈ l, lo ≤ x ∧ x < hi) : l.length ≤ (hi - lo).toNat := by
  induction l generalizing lo with
  | nil => simp
  | cons x rest ih =>
    have hx := hm x (List.mem_cons_self x rest)
    have hrest : ∀ y ∈ rest, x + 1 ≤ y ∧ y < hi := by
      intro y hy
      exact ⟨(List.pairwise_cons.mp hp).1 y hy, (hm y (List.mem_cons_of_mem x hy)).2⟩
    have := ih (x + 1) (List.pairwise_cons.mp hp).2 hrest
    simp only [List.length_cons]
    omega

theorem keep_length_lt (w : Wave2) (hw : w.WF) : w.keep.length + 1 ≤ w.N := by
  have hp : (w.keep.map w.born).Pairwise (· < ·) := by
    rw [List.pairwise_map]
    exact keep_pairwise w hw.2.2.2.2.2.1
  have hm : ∀ x ∈ w.keep.map w.born, w.tbeg + 1 ≤ x ∧ x < w.tend := by
    intro x hx
    obtain ⟨y, hy, rfl⟩ := List.mem_map.mp hx
    exact keep_born_bounds w hw y hy
  have := length_le_toNat _ _ _ hp hm
  rw [List.length_map] at this
  have hwin := hw.2.2.1
  have hN := hw.1
  omega

theorem keep_lt_nborn (w : Wave2) (hw : w.WF) : ∀ x ∈ w.keep, x < w.nborn := by
  intro x hx
  obtain ⟨_, a, ha, hax⟩ := keep_mem w x hx
  exact hax ▸ hw.2.2.2.2.2.2.2.1 a ha

theorem update_tbeg (w : Wave2) (nc : NC) (e : Option ℚ) :
    (w.update nc e).1.tbeg = w.tbeg + 1 := by
  simp [Wave2.update]

theorem update_tend (w : Wave2) (nc : NC) (e : Option ℚ) :
    (w.update nc e).1.tend = w.tend + 1 := by
  simp [Wave2.update]

theorem update_N (w : Wave2) (nc : NC) (e : Option ℚ) :
    (w.update nc e).1.N = w.N := by
  unfold Wave2.update
  split_ifs <;> rfl

theorem update_M (w : Wave2) (nc : NC) (e : Option ℚ) :
    (w.update nc e).1.M = w.M := by
  unfold Wave2.update
  split_ifs <;> rfl

theorem update_snd (w : Wave2) (nc : NC) (e : Option ℚ) :
    (w.update nc e).2 = w.frontLeaves := by
  simp [Wave2.update]

theorem update_noadmit (w : Wave2) (nc : NC) (e : Option ℚ) (h : w.tborn ≠ w.tend) :
    (w.update nc e).1.born = w.born ∧
      (w.update nc e).1.nborn = w.nborn ∧
      (w.update nc e).1.tborn = w.tborn ∧
      (w.update nc e).1.nalive = w.keep.length ∧
      (w.update nc e).1.alive = w.alive ∧
      (w.update nc e).1.current = w.keep := by
  refine ⟨?_, ?_, ?_, ?_, ?_, ?_⟩ <;>
    simp only [Wave2.update, Wave2.current, beq_iff_eq, if_neg h]
  exact range_map_prefix w.keep w.ialive

theorem map_snoc_helper (l : List ℕ) (f : ℕ → ℕ) (v : ℕ) :
    (List.range (l.length + 1)).map
      (fun j => if j = l.length then v else if j < l.length then l.getD j 0 else f j) =
      l ++ [v] := by
  rw [List.range_succ, List.map_append]
  congr 1
  · apply List.ext_getElem
    · simp
    · intro i h1 h2
      rw [List.length_map, List.length_range] at h1
      simp only [List.getElem_map, List.getElem_range]
      rw [if_neg (by omega), if_pos h1]
      simp [List.getD_eq_getElem?_getD, List.getElem?_eq_getElem h1]
  · simp

theorem update_admit (w : Wave2) (nc : NC) (e : Option ℚ) (h : w.tborn = w.tend)
    (h2 : w.nborn + 1 ≠ w.M) :
    (w.update nc e).1.born = w.born ∧
      (w.update nc e).1.nborn = w.nborn + 1 ∧
      (w.update nc e).1.tborn = w.born (w.nborn + 1) ∧
      (w.update nc e).1.nalive = w.keep.length + 1 ∧
      (w.update nc e).1.alive = w.alive ∧
      (w.update nc e).1.current = w.keep ++ [w.nborn] := by
  refine ⟨?_, ?_, ?_, ?_, ?_, ?_⟩ <;>
    simp only [Wave2.update, Wave2.current, beq_iff_eq, if_pos h, if_neg h2]
  exact map_snoc_helper w.keep w.ialive w.nborn

theorem update_rebirth (w : Wave2) (nc : NC) (e : Option ℚ) (h : w.tborn = w.tend)
    (h2 : w.nborn + 1 = w.M) :
    (∀ i, (w.update nc e).1.born i =
        if i < w.keep.length + 1 then w.born ((w.keep ++ [w.nborn]).getD i 0)
        else nc.bornF w.tend (i - (w.keep.length + 1))) ∧
      (w.update nc e).1.nborn = w.keep.length + 1 ∧
      (w.update nc e).1.tborn = nc.bornF w.tend 0 ∧
      (w.update nc e).1.nalive = w.keep.length + 1 ∧
      (w.update nc e).1.alive = (fun _ => true) ∧
      (w.update nc e).1.current = List.range (w.keep.length + 1) := by
  have hlst : (List.range (w.keep.length + 1)).map
      (fun j => if j = w.keep.length then w.nborn
        else if j < w.keep.length then w.keep.getD j 0 else w.ialive j) =
      w.keep ++ [w.nborn] := map_snoc_helper w.keep w.ialive w.nborn
  refine ⟨?_, ?_, ?_, ?_, ?_, ?_⟩
  · intro i
    simp only [Wave2.update, beq_iff_eq, if_pos h, if_pos h2, hlst]
  · simp only [Wave2.update, beq_iff_eq, if_pos h, if_pos h2]
  · simp only [Wave2.update, beq_iff_eq, if_pos h, if_pos h2]
  · simp only [Wave2.update, beq_iff_eq, if_pos h, if_pos h2]
  · simp only [Wave2.update, beq_iff_eq, if_pos h, if_pos h2]
  · simp only [Wave2.update, Wave2.current, beq_iff_eq, if_pos h, if_pos h2]
    apply List.ext_getElem
    · simp
    · intro i h1 h3
      rw [List.length_map, List.length_range] at h1
      simp only [List.getElem_map, List.getElem_range]
      rw [if_pos h1]

theorem current_length (v : Wave2) : v.current.length = v.nalive := by
  simp [Wave2.current]

theorem current_getElem (v : Wave2) (a : ℕ) (ha : a < v.current.length) :
    v.current[a] = v.ialive a := by
  simp [Wave2.current]

theorem clause6_of_current (v : Wave2)
    (hp : v.current.Pairwise (fun x y => v.born x < v.born y)) :
    ∀ a b : ℕ, a < b → b < v.nalive → v.born (v.ialive a) < v.born (v.ialive b) := by
  intro a b hab hb
  have ha' : a < v.current.length := by rw [current_length]; omega
  have hb' : b < v.current.length := by rw [current_length]; exact hb
  have h := List.pairwise_iff_getElem.mp hp a b ha' hb' hab
  rwa [current_getElem v a ha', current_getElem v b hb'] at h

theorem forall_listed_of_current (v : Wave2) (P : ℕ → Prop)
    (hm : ∀ x ∈ v.current, P x) : ∀ a : ℕ, a < v.nalive → P (v.ialive a) := by
  intro a ha
  have ha' : a < v.current.length := by rw [current_length]; exact ha
  have : v.current[a] ∈ v.current := List.getElem_mem ha'
  rw [current_getElem v a ha'] at this
  exact hm _ this

theorem keep_snoc_pairwise (w : Wave2) (hw : w.WF) (hadm : w.tborn = w.tend) :
    (w.keep ++ [w.nborn]).Pairwise (fun x y => w.born x < w.born y) := by
  rw [List.pairwise_append]
  refine ⟨keep_pairwise w hw.2.2.2.2.2.1, List.pairwise_singleton _ _, ?_⟩
  intro x hx y hy
  rw [List.mem_singleton] at hy
  subst hy
  have h1 := (keep_born_bounds w hw x hx).2
  have h10 := hw.2.2.2.2.2.2.2.2.2.1
  rw [← h10, hadm]
  exact h1

theorem keep_snoc_bounds (w : Wave2) (hw : w.WF) (hadm : w.tborn = w.tend) :
    ∀ x ∈ w.keep ++ [w.nborn],
      w.tbeg + 1 ≤ w.born x ∧ w.born x < w.tend + 1 := by
  intro x hx
  rcases List.mem_append.mp hx with hx | hx
  · have := keep_born_bounds w hw x hx
    omega
  · rw [List.mem_singleton] at hx
    subst hx
    have h10 := hw.2.2.2.2.2.2.2.2.2.1
    have hwin := hw.2.2.1
    have hN := hw.1
    rw [← h10, hadm]
    have : (1 : ℤ) ≤ (w.N : ℤ) := by exact_mod_cast hN
    omega

theorem keep_snoc_lt (w : Wave2) (hw : w.WF) :
    ∀ x ∈ w.keep ++ [w.nborn], x < w.nborn + 1 := by
  intro x hx
  rcases List.mem_append.mp hx with hx | hx
  · have := keep_lt_nborn w hw x hx
    omega
  · rw [List.mem_singleton] at hx
    omega

theorem getD_eq_getElem' (l : List ℕ) (i : ℕ) (h : i < l.length) : l.getD i 0 = l[i] := by
  simp [List.getD_eq_getElem?_getD, List.getElem?_eq_getElem h]

theorem WF_update (w : Wave2) (nc : NC) (e : Option ℚ) (hw : w.WF) (hfr : nc.Fresh) :
    (w.update nc e).1.WF := by
  obtain ⟨hN, hM, hwin, hna, hnb, h6, h7, h8, h9, h10, h11⟩ := hw
  have hw : w.WF := ⟨hN, hM, hwin, hna, hnb, h6, h7, h8, h9, h10, h11⟩
  have hKlen := keep_length_lt w hw
  have hKb := keep_born_bounds w hw
  have hKp := keep_pairwise w h6
  have hKnb := keep_lt_nborn w hw
  have htb := update_tbeg w nc e
  have hte := update_tend w nc e
  have hNN := update_N w nc e
  have hMM := update_M w nc e
  have hN1 : (1 : ℤ) ≤ (w.N : ℤ) := by exact_mod_cast hN
  by_cases hadm : w.tborn = w.tend
  · by_cases hreb : w.nborn + 1 = w.M
    · obtain ⟨hb, hnb', htborn', hna', hal', hcur'⟩ := update_rebirth w nc e hadm hreb
      have hlstlen : (w.keep ++ [w.nborn]).length = w.keep.length + 1 := by simp
      have hplst := keep_snoc_pairwise w hw hadm
      refine ⟨by rw [hNN]; exact hN, by rw [hMM, hNN]; exact hM,
        by rw [htb, hte, hNN]; omega, by rw [hna', hNN]; omega,
        by rw [hnb', hMM, hM]; omega, ?_, ?_, ?_, ?_, ?_, ?_⟩
      · apply clause6_of_current
        rw [hcur', List.pairwise_iff_getElem]
        intro i j hi hj hij
        rw [List.length_range] at hi hj
        simp only [List.getElem_range]
        rw [hb i, hb j, if_pos hi, if_pos hj,
          getD_eq_getElem' _ i (by omega), getD_eq_getElem' _ j (by omega)]
        exact List.pairwise_iff_getElem.mp hplst i j (by omega) (by omega) hij
      · refine forall_listed_of_current (w.update nc e).1
          (fun x => (w.update nc e).1.tbeg ≤ (w.update nc e).1.born x ∧
            (w.update nc e).1.born x < (w.update nc e).1.tend) ?_
        rw [hcur']
        intro x hx
        rw [List.mem_range] at hx
        rw [hb x, if_pos hx, htb, hte, getD_eq_getElem' _ x (by omega)]
        exact keep_snoc_bounds w hw hadm _ (List.getElem_mem (by omega))
      · refine forall_listed_of_current (w.update nc e).1
          (fun x => x < (w.update nc e).1.nborn) ?_
        rw [hcur', hnb']
        intro x hx
        rw [List.mem_range] at hx
        exact hx
      · rw [hte, htborn']
        have := hfr.1 w.tend
        omega
      · rw [htborn', hnb', hb (w.keep.length + 1), if_neg (by omega), Nat.sub_self]
      · intro k hk hk2
        rw [hnb'] at hk
        rw [hMM] at hk2
        rw [hb k, hb (k + 1), if_neg (by omega), if_neg (by omega)]
        have harith : k + 1 - (w.keep.length + 1) = (k - (w.keep.length + 1)) + 1 := by omega
        rw [harith]
        exact hfr.2 w.tend _
    · obtain ⟨hb, hnb', htborn', hna', hal', hcur'⟩ := update_admit w nc e hadm hreb
      have hplst := keep_snoc_pairwise w hw hadm
      refine ⟨by rw [hNN]; exact hN, by rw [hMM, hNN]; exact hM,
        by rw [htb, hte, hNN]; omega, by rw [hna', hNN]; omega,
        by rw [hnb', hMM]; omega, ?_, ?_, ?_, ?_, ?_, ?_⟩
      · apply clause6_of_current
        rw [hcur', hb]
        exact hplst
      · refine forall_listed_of_current (w.update nc e).1
          (fun x => (w.update nc e).1.tbeg ≤ (w.update nc e).1.born x ∧
            (w.update nc e).1.born x < (w.update nc e).1.tend) ?_
        rw [hcur']
        intro x hx
        rw [hb, htb, hte]
        exact keep_snoc_bounds w hw hadm x hx
      · refine forall_listed_of_current (w.update nc e).1
          (fun x => x < (w.update nc e).1.nborn) ?_
        rw [hcur', hnb']
        intro x hx
        exact keep_snoc_lt w hw x hx
      · rw [hte, htborn']
        have hlt := h11 w.nborn (le_refl _) (by omega)
        rw [← h10, hadm] at hlt
        omega
      · rw [htborn', hnb', hb]
      · intro k hk hk2
        rw [hnb'] at hk
        rw [hMM] at hk2
        rw [hb]
        exact h11 k (by omega) hk2
  · obtain ⟨hb, hnb', htborn', hna', hal', hcur'⟩ := update_noadmit w nc e hadm
    refine ⟨by rw [hNN]; exact hN, by rw [hMM, hNN]; exact hM,
      by rw [htb, hte, hNN]; omega, by rw [hna', hNN]; omega,
      by rw [hnb', hMM]; omega, ?_, ?_, ?_, ?_, ?_, ?_⟩
    · apply clause6_of_current
      rw [hcur', hb]
      exact hKp
    · refine forall_listed_of_current (w.update nc e).1
        (fun x => (w.update nc e).1.tbeg ≤ (w.update nc e).1.born x ∧
          (w.update nc e).1.born x < (w.update nc e).1.tend) ?_
      rw [hcur']
      intro x hx
      rw [hb, htb, hte]
      have := hKb x hx
      omega
    · refine forall_listed_of_current (w.update nc e).1
        (fun x => x < (w.update nc e).1.nborn) ?_
      rw [hcur', hnb']
      intro x hx
      exact hKnb x hx
    · rw [hte, htborn']
      omega
    · rw [htborn', hnb', hb, h10]
    · intro k hk hk2
      rw [hnb'] at hk
      rw [hMM] at hk2
      rw [hb]
      exact h11 k hk hk2

theorem WF_init (N : ℕ) (nc : NC) (hN : 0 < N) (hfr : nc.Fresh) : (Wave2.init N nc).WF := by
  refine ⟨hN, rfl, by simp [Wave2.init], by simp [Wave2.init], by simp [Wave2.init]; omega,
    ?_, ?_, ?_, ?_, rfl, ?_⟩
  · intro a b _ hb
    simp [Wave2.init] at hb
  · intro a ha
    simp [Wave2.init] at ha
  · intro a ha
    simp [Wave2.init] at ha
  · show (N : ℤ) ≤ nc.bornF ((N : ℤ) - 1) 0
    have := hfr.1 ((N : ℤ) - 1)
    omega
  · intro k _ _
    exact hfr.2 _ k

theorem targetNC_fresh (N : ℕ) (d : TDraw) (hd : d.Pos) : (targetNC N d).Fresh := by
  constructor
  · intro t
    have := hd 0
    simp only [targetNC]
    have h0 : csum d.g 0 = d.g 0 := rfl
    omega
  · intro t k
    have := hd (k + 1)
    simp only [targetNC]
    have hstep : csum d.g (k + 1) = csum d.g k + d.g (k + 1) := rfl
    omega

theorem bulletNC_fresh (rl : ℤ) (hrl : 1 ≤ rl) : (bulletNC rl).Fresh := by
  constructor
  · intro t
    simp only [bulletNC]
    nlinarith
  · intro t k
    simp only [bulletNC]
    have : rl * ((k : ℤ) + 1) < rl * ((k : ℤ) + 1 + 1) := by nlinarith
    push_cast
    linarith

theorem WF_set_alive (w : Wave2) (f : ℕ → Bool) :
    ({ w with alive := f } : Wave2).WF ↔ w.WF := Iff.rfl

theorem hits2_waves (h : Shooter.Hits) (t : Targets) (b : Bullets) :
    (Hits.update h t b).2.1.w.ialive = t.w.ialive ∧
      (Hits.update h t b).2.1.w.nalive = t.w.nalive ∧
      (Hits.update h t b).2.1.w.current = t.w.current ∧
      (Hits.update h t b).2.2.1.w.ialive = b.w.ialive ∧
      (Hits.update h t b).2.2.1.w.nalive = b.w.nalive ∧
      (Hits.update h t b).2.2.1.w.current = b.w.current :=
  ⟨rfl, rfl, rfl, rfl, rfl, rfl⟩

theorem hits2_targets_w (h : Shooter.Hits) (t : Targets) (b : Bullets) :
    (Hits.update h t b).2.1.w =
      { t.w with alive := (Hits.update h t b).2.1.w.alive } := rfl

theorem hits2_bullets_w (h : Shooter.Hits) (t : Targets) (b : Bullets) :
    (Hits.update h t b).2.2.1.w =
      { b.w with alive := (Hits.update h t b).2.2.1.w.alive } := rfl

theorem hits2_targets_rest (h : Shooter.Hits) (t : Targets) (b : Bullets) :
    (Hits.update h t b).2.1.score = t.score ∧
      (Hits.update h t b).2.2.1.rload = b.rload :=
  ⟨rfl, rfl⟩

theorem Game.update_targets (c : Shooter.Cfg) (inp : In2) (s : GState)
    (hq : inp.quit = false) :
    (Game.update c inp s).1.targets =
      (Hits.update s.hits (s.targets.update inp.draw).1
        (s.bullets.update (s.avatar.update inp.move).x)).2.1 := by
  simp [Game.update, hq]

theorem Game.update_bullets (c : Shooter.Cfg) (inp : In2) (s : GState)
    (hq : inp.quit = false) :
    (Game.update c inp s).1.bullets =
      (Hits.update s.hits (s.targets.update inp.draw).1
        (s.bullets.update (s.avatar.update inp.move).x)).2.2.1 := by
  simp [Game.update, hq]

theorem Game.update_quit_components (c : Shooter.Cfg) (inp : In2) (s : GState)
    (hq : inp.quit = true) :
    (Game.update c inp s).1.targets = s.targets ∧
      (Game.update c inp s).1.bullets = s.bullets ∧
      (Game.update c inp s).1.hits = s.hits := by
  refine ⟨?_, ?_, ?_⟩ <;> simp [Game.update, hq]

theorem Targets.update_wt (t : Targets) (d : TDraw) :
    ((t.update d).1).w = (t.w.update (targetNC t.w.N d) none).1 := rfl

theorem Bullets.update_wb (b : Bullets) (ax : ℚ) :
    (b.update ax).w = (b.w.update (bulletNC b.rload) (some ax)).1 := rfl

theorem Bullets.update_rload (b : Bullets) (ax : ℚ) : (b.update ax).rload = b.rload := rfl

theorem WFstate_update (c : Shooter.Cfg) (inp : In2) (s : GState)
    (hs : s.WFstate) (hd : inp.draw.Pos) : (Game.update c inp s).1.WFstate := by
  obtain ⟨hwt, hwb, hrl⟩ := hs
  by_cases hq : inp.quit
  · obtain ⟨h1, h2, _⟩ := Game.update_quit_components c inp s hq
    exact ⟨by rw [h1]; exact hwt, by rw [h2]; exact hwb, by rw [h2]; exact hrl⟩
  · rw [Bool.not_eq_true] at hq
    refine ⟨?_, ?_, ?_⟩
    · rw [Game.update_targets c inp s hq, hits2_targets_w, WF_set_alive,
        Targets.update_wt]
      exact WF_update _ _ _ hwt (targetNC_fresh _ _ hd)
    · rw [Game.update_bullets c inp s hq, hits2_bullets_w, WF_set_alive,
        Bullets.update_wb]
      exact WF_update _ _ _ hwb (bulletNC_fresh _ hrl)
    · rw [Game.update_bullets c inp s hq, (hits2_targets_rest _ _ _).2,
        Bullets.update_rload]
      exact hrl

theorem WFstate_steps (c : Shooter.Cfg) (ins : ℕ → In2) (s0 : GState)
    (hs : s0.WFstate) (hd : ∀ j, (ins j).draw.Pos) (k : ℕ) :
    (Game.steps c ins s0 k).WFstate := by
  induction k with
  | zero => exact hs
  | succ k ih => exact WFstate_update c (ins k) _ ih (hd k)

theorem admitIdx_lt (w : Wave2) (hw : w.WF) (n : ℕ) (h : w.admitIdx = some n) :
    n < w.N := by
  unfold Wave2.admitIdx at h
  split_ifs at h
  · have := keep_length_lt w hw
    cases h
    omega

end Shooter2

namespace Shooter2

theorem WFstate_init (c : Shooter.Cfg) (d : TDraw)
    (h1 : 0 < (⌊c.fps / c.tv⌋).toNat) (h2 : 0 < (⌊c.fps / c.bv⌋).toNat)
    (h3 : 1 ≤ Shooter.pyInt (c.rload * c.fps)) (hd : d.Pos) :
    (Game.make c d).WFstate :=
  ⟨WF_init _ _ h1 (targetNC_fresh _ d hd),
    WF_init _ _ h2 (bulletNC_fresh _ h3), h3⟩

end Shooter2

/-- C4.  In both variants the number of exposed/visible sprites of a wave
never exceeds the window size `N = int(fps/v)`: in v1 the window slice has
length `N` so its visible count is bounded outright; in v2 the alive-index
prefix `ialive[:nalive]` keeps `nalive ≤ N` along every run from a
well-formed state, and whenever the admission branch writes
`ialive[n] = nborn` the index `n` is below `N`, so the write never indexes
past the length-`N` array. -/
theorem C4_window_bound :
    (∀ t : Shooter.Targets, t.visibleCount ≤ t.N) ∧
    (∀ b : Shooter.Bullets, b.visibleCount ≤ b.N) ∧
    (∀ (c : Shooter.Cfg) (pg : Shooter.TPage),
      (Shooter.Targets.init c.fps c.tv c.rate c.width pg).N = (⌊c.fps / c.tv⌋).toNat) ∧
    (∀ (c : Shooter.Cfg) (d : Shooter2.TDraw),
      (Shooter2.Game.make c d).targets.w.N = (⌊c.fps / c.tv⌋).toNat) ∧
    (∀ (c : Shooter.Cfg) (ins : ℕ → Shooter2.In2) (s0 : Shooter2.GState),
      s0.WFstate → (∀ j, (ins j).draw.Pos) → ∀ k,
        (Shooter2.Game.steps c ins s0 k).targets.w.nalive ≤
            (Shooter2.Game.steps c ins s0 k).targets.w.N ∧
          (Shooter2.Game.steps c ins s0 k).bullets.w.nalive ≤
            (Shooter2.Game.steps c ins s0 k).bullets.w.N ∧
          (∀ n, (Shooter2.Game.steps c ins s0 k).targets.w.admitIdx = some n →
            n < (Shooter2.Game.steps c ins s0 k).targets.w.N) ∧
          (∀ n, (Shooter2.Game.steps c ins s0 k).bullets.w.admitIdx = some n →
            n < (Shooter2.Game.steps c ins s0 k).bullets.w.N)) := by
  refine ⟨?_, ?_, fun c pg => rfl, fun c d => rfl, ?_⟩
  · intro t
    calc ((List.range t.N).filter fun r => t.visible (t.n + r)).length
        ≤ (List.range t.N).length := List.length_filter_le _ _
      _ = t.N := List.length_range t.N
  · intro b
    calc ((List.range b.N).filter fun r => b.visible (b.n + r)).length
        ≤ (List.range b.N).length := List.length_filter_le _ _
      _ = b.N := List.length_range b.N
  · intro c ins s0 hs hd k
    obtain ⟨hwt, hwb, _⟩ := Shooter2.WFstate_steps c ins s0 hs hd k
    exact ⟨hwt.2.2.2.1, hwb.2.2.2.1,
      fun n h => Shooter2.admitIdx_lt _ hwt n h,
      fun n h => Shooter2.admitIdx_lt _ hwb n h⟩

/-- Witness for C4: the v1 hand-built one-slot wave, and the first frames
of the concrete v2 run, all satisfy the bound. -/
theorem C4_window_bound_witness :
    ShooterEx.exT1.visibleCount ≤ ShooterEx.exT1.N ∧
      (ShooterEx.exS2Miss.targets.w.nalive ≤ ShooterEx.exS2Miss.targets.w.N ∧
        (Shooter2.Game.steps ShooterEx.exCfgMiss ShooterEx.exIns2 ShooterEx.exS2Miss
            3).targets.w.nalive ≤
          (Shooter2.Game.steps ShooterEx.exCfgMiss ShooterEx.exIns2 ShooterEx.exS2Miss
            3).targets.w.N) := by
  have hwf : ShooterEx.exS2Miss.WFstate :=
    Shooter2.WFstate_init ShooterEx.exCfgMiss ShooterEx.exDraw
      (by norm_num [ShooterEx.exCfgMiss])
      (by norm_num [ShooterEx.exCfgMiss])
      (by norm_num [ShooterEx.exCfgMiss, Shooter.pyInt])
      (fun k => le_refl 1)
  have hd : ∀ j, (ShooterEx.exIns2 j).draw.Pos := fun j k => le_refl 1
  exact ⟨C4_window_bound.1 ShooterEx.exT1,
    (C4_window_bound.2.2.2.2 ShooterEx.exCfgMiss ShooterEx.exIns2 ShooterEx.exS2Miss
        hwf hd 0).1,
    (C4_window_bound.2.2.2.2 ShooterEx.exCfgMiss ShooterEx.exIns2 ShooterEx.exS2Miss
        hwf hd 3).1⟩

namespace Shooter2

theorem currentBorns_update (w : Wave2) (nc : NC) (e : Option ℚ) :
    (w.update nc e).1.currentBorns =
      (if w.tborn = w.tend then w.keep ++ [w.nborn] else w.keep).map w.born := by
  by_cases hadm : w.tborn = w.tend
  · by_cases hreb : w.nborn + 1 = w.M
    · obtain ⟨hb, _, _, _, _, hcur'⟩ := update_rebirth w nc e hadm hreb
      rw [Wave2.currentBorns, Wave2.current] at *
      rw [hcur', if_pos hadm]
      apply List.ext_getElem
      · simp
      · intro i h1 h2
        rw [List.length_map, List.length_range] at h1
        simp only [List.getElem_map, List.getElem_range]
        rw [hb i, if_pos h1, getD_eq_getElem' _ i (by simp [h1])]
    · obtain ⟨hb, _, _, _, _, hcur'⟩ := update_admit w nc e hadm hreb
      rw [Wave2.currentBorns, hcur', hb, if_pos hadm]
  · obtain ⟨hb, _, _, _, _, hcur'⟩ := update_noadmit w nc e hadm
    rw [Wave2.currentBorns, hcur', hb, if_neg hadm]

theorem dead_listed_removed (w : Wave2) (nc : NC) (e : Option ℚ) (hw : w.WF)
    (i : ℕ) (hi : i ∈ w.current) (hd : w.alive i = false) :
    w.born i ∉ (w.update nc e).1.currentBorns := by
  rw [currentBorns_update]
  intro hmem
  obtain ⟨x, hx, hbx⟩ := List.mem_map.mp hmem
  have hxk : x ∈ w.keep ∨ (w.tborn = w.tend ∧ x = w.nborn) := by
    split_ifs at hx with hadm
    · rcases List.mem_append.mp hx with h | h
      · exact Or.inl h
      · exact Or.inr ⟨hadm, List.mem_singleton.mp h⟩
    · exact Or.inl hx
  rcases hxk with hxk | ⟨hadm, rfl⟩
  · obtain ⟨halx, a, ha, hax⟩ := keep_mem w x hxk
    obtain ⟨b, hb, hbi⟩ := (mem_current w i).mp hi
    have h6 := hw.2.2.2.2.2.1
    have hab : a = b := by
      by_contra hne
      rcases Nat.lt_or_ge a b with h | h
      · have := h6 a b h hb
        rw [hax, hbi, hbx] at this
        omega
      · have hba : b < a := by omega
        have := h6 b a hba ha
        rw [hax, hbi, hbx] at this
        omega
    rw [hab, hbi] at hax
    rw [← hax, hd] at halx
    exact Bool.noConfusion halx
  · have h10 := hw.2.2.2.2.2.2.2.2.2.1
    obtain ⟨b, hb, hbi⟩ := (mem_current w i).mp hi
    have h7 := hw.2.2.2.2.2.2.1 b hb
    rw [hbi] at h7
    have heq : w.born i = w.tend := by rw [← hbx, ← h10, hadm]
    omega

end Shooter2

/-- C9.  In v2, `Hits.update` deactivates sprites only through their
`alive` flags: the alive-index lists of both waves (contents, order and
length) are untouched within the frame; and the deactivated sprite is
compacted out at the next `Wave.update` of its wave — its birth frame no
longer appears among the listed sprites after that update. -/
theorem C9_deferred_compaction :
    (∀ (h : Shooter.Hits) (t : Shooter2.Targets) (b : Shooter2.Bullets),
      (Shooter2.Hits.update h t b).2.1.w.ialive = t.w.ialive ∧
        (Shooter2.Hits.update h t b).2.1.w.nalive = t.w.nalive ∧
        (Shooter2.Hits.update h t b).2.1.w.current = t.w.current ∧
        (Shooter2.Hits.update h t b).2.2.1.w.ialive = b.w.ialive ∧
        (Shooter2.Hits.update h t b).2.2.1.w.nalive = b.w.nalive ∧
        (Shooter2.Hits.update h t b).2.2.1.w.current = b.w.current) ∧
    (∀ (w : Shooter2.Wave2) (nc : Shooter2.NC) (e : Option ℚ), w.WF →
      ∀ i ∈ w.current, w.alive i = false →
        w.born i ∉ (w.update nc e).1.currentBorns) :=
  ⟨Shooter2.hits2_waves,
    fun w nc e hw i hi hd => Shooter2.dead_listed_removed w nc e hw i hi hd⟩

/-- Witness for C9: in the hand-built well-formed wave with its only
listed sprite deactivated, that sprite's birth frame is gone from the
alive list after the next wave update. -/
theorem C9_deferred_compaction_witness :
    ShooterEx.exW.born 1 ∉
      (ShooterEx.exW.update (Shooter2.bulletNC 1) none).1.currentBorns := by
  have hwf : ShooterEx.exW.WF := by
    refine ⟨by norm_num [ShooterEx.exW], by norm_num [ShooterEx.exW],
      by norm_num [ShooterEx.exW], by norm_num [ShooterEx.exW],
      by norm_num [ShooterEx.exW], ?_, ?_, ?_, by norm_num [ShooterEx.exW],
      by norm_num [ShooterEx.exW], ?_⟩
    · intro a b hab hb
      simp only [ShooterEx.exW] at hb ⊢
      omega
    · intro a ha
      simp only [ShooterEx.exW] at ha ⊢
      norm_num
    · intro a ha
      simp only [ShooterEx.exW] at ha ⊢
      omega
    · intro k hk hk2
      simp only [ShooterEx.exW] at hk hk2 ⊢
      omega
  exact C9_deferred_compaction.2 ShooterEx.exW (Shooter2.bulletNC 1) none hwf 1
    (by simp [Shooter2.mem_current]; exact ⟨0, by norm_num [ShooterEx.exW]⟩)
    (by norm_num [ShooterEx.exW])

namespace Shooter

theorem Hits.update_t (h : Hits) (t : Targets) (b : Bullets) :
    (h.update t b).2.1.n = t.n ∧ (h.update t b).2.1.N = t.N ∧
      (h.update t b).2.1.score = t.score ∧
      ∀ k, (h.update t b).2.1.visible k =
        if t.n ≤ k ∧ k < t.n + t.N ∧ Hits.hitT (h.pairs t b) (k - t.n) = true then false
        else t.visible k :=
  ⟨rfl, rfl, rfl, fun _ => rfl⟩

theorem Hits.update_pairs (h : Hits) (t : Targets) (b : Bullets) :
    (h.update t b).2.2.2 = h.pairs t b := rfl

theorem Hits.update_score (h : Hits) (t : Targets) (b : Bullets) :
    (h.update t b).1.score = h.score + (h.pairs t b).length := rfl

theorem Hits.pairs_fst_lt (h : Hits) (t : Targets) (b : Bullets) :
    ∀ p ∈ h.pairs t b, p.1 < t.N := by
  intro p hp
  unfold Hits.pairs at hp
  rw [List.mem_flatMap] at hp
  obtain ⟨i, hi, hp⟩ := hp
  rw [List.mem_filterMap] at hp
  obtain ⟨j, hj, hp⟩ := hp
  rw [List.mem_range] at hi
  split_ifs at hp
  · cases hp
    exact hi

theorem Hits.hitT_lt (h : Hits) (t : Targets) (b : Bullets) (r : ℕ)
    (hr : Hits.hitT (h.pairs t b) r = true) : r < t.N := by
  unfold Hits.hitT at hr
  rw [List.any_eq_true] at hr
  obtain ⟨p, hp, hpr⟩ := hr
  rw [beq_iff_eq] at hpr
  exact hpr ▸ Hits.pairs_fst_lt h t b p hp

theorem Hits.hitT_of_mem (ps : List (ℕ × ℕ)) (p : ℕ × ℕ) (hp : p ∈ ps) :
    Hits.hitT ps p.1 = true := by
  unfold Hits.hitT
  rw [List.any_eq_true]
  exact ⟨p, hp, beq_self_eq_true p.1⟩

theorem Targets.update_noswap (t : Targets) (pg : TPage) (h : t.n + 1 ≠ t.N) :
    (t.update pg).1.n = t.n + 1 ∧ (t.update pg).1.N = t.N ∧
      (t.update pg).1.visible = t.visible ∧
      (t.update pg).1.score = (if t.visible t.n then t.score + 1 else t.score) ∧
      (t.update pg).2 = t.visible t.n := by
  refine ⟨?_, ?_, ?_, ?_, ?_⟩ <;> simp [Targets.update, h]

theorem Targets.update_swap (t : Targets) (pg : TPage) (h : t.n + 1 = t.N) :
    (t.update pg).1.n = 0 ∧ (t.update pg).1.N = t.N ∧
      (∀ i, (t.update pg).1.visible i = if i < t.N then t.visible (i + t.N)
        else (Targets.newpage t.rate t.N pg).2.2 (i - t.N)) ∧
      (t.update pg).1.score = (if t.visible t.n then t.score + 1 else t.score) ∧
      (t.update pg).2 = t.visible t.n := by
  refine ⟨?_, ?_, ?_, ?_, ?_⟩ <;> simp [Targets.update, h]

theorem Game.update_nstep (c : Cfg) (inp : In1) (s : GState) :
    (Game.update c inp s).1.nstep = if inp.quit then s.nstep else s.nstep + 1 := by
  by_cases hq : inp.quit <;> simp [Game.update, hq]

theorem Game.update_targets1 (c : Cfg) (inp : In1) (s : GState) (hq : inp.quit = false) :
    (Game.update c inp s).1.targets =
      (s.hits.update (s.targets.update inp.page).1
        (s.bullets.update (s.avatar.update inp.move).x)).2.1 := by
  simp [Game.update, hq]

theorem Game.update_quit_frozen (c : Cfg) (inp : In1) (s : GState) (hq : inp.quit = true) :
    (Game.update c inp s).1.targets = s.targets ∧
      (Game.update c inp s).1.hits = s.hits ∧
      (Game.update c inp s).1.nstep = s.nstep ∧
      (Game.update c inp s).2 = { miss := false, pairs := [] } := by
  refine ⟨?_, ?_, ?_, ?_⟩ <;> simp [Game.update, hq]

theorem Game.ev_nonquit (c : Cfg) (ins : ℕ → In1) (s0 : GState) (k : ℕ)
    (hq : (ins k).quit = false) :
    (Game.ev c ins s0 k).miss =
        (Game.steps c ins s0 k).targets.visible (Game.steps c ins s0 k).targets.n ∧
      (Game.ev c ins s0 k).pairs =
        (Game.steps c ins s0 k).hits.pairs
          ((Game.steps c ins s0 k).targets.update (ins k).page).1
          ((Game.steps c ins s0 k).bullets.update
            ((Game.steps c ins s0 k).avatar.update (ins k).move).x) := by
  constructor
  · rw [Game.ev]
    simp only [Game.update, hq, Bool.false_eq_true, if_false]
    rw [Targets.update]
    by_cases hsw : (Game.steps c ins s0 k).targets.n + 1 = (Game.steps c ins s0 k).targets.N <;>
      simp [hsw]
  · rw [Game.ev]
    simp [Game.update, hq, Hits.update]

end Shooter

namespace Shooter

theorem v1_log_invariant (c : Cfg) (ins : ℕ → In1) (s0 : GState)
    (hn0 : s0.targets.n < s0.targets.N) (hns : s0.targets.n ≤ s0.nstep) : ∀ k : ℕ,
    (Game.steps c ins s0 k).targets.N = s0.targets.N ∧
      (Game.steps c ins s0 k).targets.n < (Game.steps c ins s0 k).targets.N ∧
      (Game.steps c ins s0 k).targets.n ≤ (Game.steps c ins s0 k).nstep ∧
      (∀ g ∈ Game.missLog c ins s0 k, g < (Game.steps c ins s0 k).nstep) ∧
      (∀ g ∈ Game.hitLog c ins s0 k,
        g < (Game.steps c ins s0 k).nstep + (Game.steps c ins s0 k).targets.N) ∧
      (∀ g ∈ Game.hitLog c ins s0 k,
        (Game.steps c ins s0 k).nstep - (Game.steps c ins s0 k).targets.n ≤ g →
          (Game.steps c ins s0 k).targets.visible
            (g - ((Game.steps c ins s0 k).nstep - (Game.steps c ins s0 k).targets.n))
            = false) ∧
      (∀ g, ¬(g ∈ Game.missLog c ins s0 k ∧ g ∈ Game.hitLog c ins s0 k)) := by
  intro k
  induction k with
  | zero =>
    refine ⟨rfl, hn0, hns, ?_, ?_, ?_, ?_⟩ <;> simp [Game.missLog, Game.hitLog]
  | succ k ih =>
    obtain ⟨ihN, ihn, ihns, ihml, ihhl1, ihhl2, ihdisj⟩ := ih
    by_cases hq : (ins k).quit
    · obtain ⟨hT, hH, hS, hE⟩ := Game.update_quit_frozen c (ins k) (Game.steps c ins s0 k) hq
      have hml : Game.missLog c ins s0 (k + 1) = Game.missLog c ins s0 k := by
        simp [Game.missLog, Game.ev, hE]
      have hhl : Game.hitLog c ins s0 (k + 1) = Game.hitLog c ins s0 k := by
        simp [Game.hitLog, Game.ev, hE]
      rw [Game.steps_succ, hT, hS, hml, hhl]
      exact ⟨ihN, ihn, ihns, ihml, ihhl1, ihhl2, ihdisj⟩
    · rw [Bool.not_eq_true] at hq
      set s := Game.steps c ins s0 k with hs
      have hmiss := (Game.ev_nonquit c ins s0 k hq).1
      have hpairs := (Game.ev_nonquit c ins s0 k hq).2
      set t1 := (s.targets.update (ins k).page).1 with ht1
      set b1 := (s.bullets.update ((s.avatar.update (ins k).move).x)) with hb1
      set ps := s.hits.pairs t1 b1 with hps
      have hT' : (Game.steps c ins s0 (k + 1)).targets = (s.hits.update t1 b1).2.1 := by
        rw [Game.steps_succ]
        exact Game.update_targets1 c (ins k) s hq
      have hS' : (Game.steps c ins s0 (k + 1)).nstep = s.nstep + 1 := by
        rw [Game.steps_succ, Game.update_nstep, hq]
        simp
      have hup := Hits.update_t s.hits t1 b1
      have hml : Game.missLog c ins s0 (k + 1) =
          Game.missLog c ins s0 k ++
            (if s.targets.visible s.targets.n then [s.nstep] else []) := by
        simp only [Game.missLog, hmiss, ← hs]
      have hhl : Game.hitLog c ins s0 (k + 1) =
          Game.hitLog c ins s0 k ++ ps.map (fun p => s.nstep + 1 + p.1) := by
        simp only [Game.hitLog, hpairs, ← hs, ← ht1, ← hb1, ← hps]
      have hN1 : t1.N = s.targets.N := by
        by_cases hsw : s.targets.n + 1 = s.targets.N
        · exact (Targets.update_swap s.targets (ins k).page hsw).2.1
        · exact (Targets.update_noswap s.targets (ins k).page hsw).2.1
      have hTN : (Game.steps c ins s0 (k + 1)).targets.N = s0.targets.N := by
        rw [hT', hup.2.1, hN1, ihN]
      have hTn : (Game.steps c ins s0 (k + 1)).targets.n = t1.n := by
        rw [hT', hup.1]
      have hvis : ∀ x, (Game.steps c ins s0 (k + 1)).targets.visible x =
          if t1.n ≤ x ∧ x < t1.n + t1.N ∧ Hits.hitT ps (x - t1.n) = true then false
          else t1.visible x := by
        intro x
        rw [hT']
        exact hup.2.2.2 x
      refine ⟨hTN, ?_, ?_, ?_, ?_, ?_, ?_⟩
      · rw [hTn, hTN, ht1]
        by_cases hsw : s.targets.n + 1 = s.targets.N
        · rw [(Targets.update_swap s.targets (ins k).page hsw).1]
          omega
        · rw [(Targets.update_noswap s.targets (ins k).page hsw).1]
          omega
      · rw [hTn, hS', ht1]
        by_cases hsw : s.targets.n + 1 = s.targets.N
        · rw [(Targets.update_swap s.targets (ins k).page hsw).1]
          omega
        · rw [(Targets.update_noswap s.targets (ins k).page hsw).1]
          omega
      · rw [hml, hS']
        intro g hg
        rw [List.mem_append] at hg
        rcases hg with hg | hg
        · have := ihml g hg
          omega
        · split_ifs at hg with hv
          · simp at hg
            omega
          · simp at hg
      · rw [hhl, hS', hTN]
        intro g hg
        rw [List.mem_append] at hg
        rcases hg with hg | hg
        · have := ihhl1 g hg
          omega
        · obtain ⟨p, hp, rfl⟩ := List.mem_map.mp hg
          rw [hps] at hp
          have hp1 := Hits.pairs_fst_lt s.hits t1 b1 p hp
          omega
      · rw [hhl, hS', hTn]
        intro g hg hB
        rw [hvis]
        rw [List.mem_append] at hg
        by_cases hsw : s.targets.n + 1 = s.targets.N
        · have hn0 : t1.n = 0 := (Targets.update_swap s.targets (ins k).page hsw).1
          have hvv2 : ∀ i, t1.visible i =
              if i < s.targets.N then s.targets.visible (i + s.targets.N)
              else (Targets.newpage s.targets.rate s.targets.N (ins k).page).2.2
                (i - s.targets.N) :=
            (Targets.update_swap s.targets (ins k).page hsw).2.2.1
          rw [hn0] at hB ⊢
          split_ifs with hc
          · rfl
          · rw [hvv2]
            rcases hg with hg | hg
            · have h5 := ihhl1 g hg
              have hlt : g - (s.nstep + 1 - 0) < s.targets.N := by omega
              rw [if_pos hlt]
              have harith : g - (s.nstep + 1 - 0) + s.targets.N
                  = g - (s.nstep - s.targets.n) := by omega
              rw [harith]
              exact ihhl2 g hg (by omega)
            · exfalso
              obtain ⟨p, hp, rfl⟩ := List.mem_map.mp hg
              rw [hps] at hp
              have hp1 := Hits.pairs_fst_lt s.hits t1 b1 p hp
              apply hc
              have hxe : s.nstep + 1 + p.1 - (s.nstep + 1 - 0) = p.1 := by omega
              rw [hxe]
              have hxe2 : p.1 - 0 = p.1 := by omega
              rw [hxe2]
              refine ⟨by omega, by omega, ?_⟩
              rw [← hps] at hp
              exact Hits.hitT_of_mem ps p hp
        · have hn1 : t1.n = s.targets.n + 1 :=
            (Targets.update_noswap s.targets (ins k).page hsw).1
          have hvv : t1.visible = s.targets.visible :=
            (Targets.update_noswap s.targets (ins k).page hsw).2.2.1
          rw [hn1] at hB ⊢
          have hBe : s.nstep + 1 - (s.targets.n + 1) = s.nstep - s.targets.n := by omega
          rw [hBe] at hB ⊢
          split_ifs with hc
          · rfl
          · rw [hvv]
            rcases hg with hg | hg
            · exact ihhl2 g hg hB
            · exfalso
              obtain ⟨p, hp, rfl⟩ := List.mem_map.mp hg
              rw [hps] at hp
              have hp1 := Hits.pairs_fst_lt s.hits t1 b1 p hp
              apply hc
              have hxe : s.nstep + 1 + p.1 - (s.nstep - s.targets.n)
                  = s.targets.n + 1 + p.1 := by omega
              rw [hxe]
              have hxe2 : s.targets.n + 1 + p.1 - (s.targets.n + 1) = p.1 := by omega
              rw [hxe2]
              refine ⟨by omega, by omega, ?_⟩
              rw [← hps] at hp
              exact Hits.hitT_of_mem ps p hp
      · intro g hgb
        obtain ⟨hgm, hgh⟩ := hgb
        rw [hml, List.mem_append] at hgm
        rw [hhl, List.mem_append] at hgh
        rcases hgm with hgm | hgm
        · rcases hgh with hgh | hgh
          · exact ihdisj g ⟨hgm, hgh⟩
          · have h4 := ihml g hgm
            obtain ⟨p, hp, rfl⟩ := List.mem_map.mp hgh
            omega
        · have hgv : s.targets.visible s.targets.n = true ∧ g = s.nstep := by
            by_cases hv : s.targets.visible s.targets.n
            · simp [hv] at hgm
              exact ⟨hv, hgm⟩
            · simp [hv] at hgm
          obtain ⟨hv, rfl⟩ := hgv
          rcases hgh with hgh | hgh
          · have h6 := ihhl2 s.nstep hgh (by omega)
            rw [show s.nstep - (s.nstep - s.targets.n) = s.targets.n from by omega] at h6
            rw [hv] at h6
            exact Bool.noConfusion h6
          · obtain ⟨p, hp, hpe⟩ := List.mem_map.mp hgh
            omega

end Shooter

namespace Shooter2

theorem Game.steps2_succ (c : Shooter.Cfg) (ins : ℕ → In2) (s0 : GState) (k : ℕ) :
    Game.steps c ins s0 (k + 1) = (Game.update c (ins k) (Game.steps c ins s0 k)).1 := rfl

theorem Game.ev2_quit (c : Shooter.Cfg) (ins : ℕ → In2) (s0 : GState) (k : ℕ)
    (hq : (ins k).quit = true) :
    Game.ev c ins s0 k = { miss := false, pairs := [] } := by
  rw [Game.ev]
  simp [Game.update, hq]

theorem Game.ev2_nonquit (c : Shooter.Cfg) (ins : ℕ → In2) (s0 : GState) (k : ℕ)
    (hq : (ins k).quit = false) :
    (Game.ev c ins s0 k).miss = (Game.steps c ins s0 k).targets.w.frontLeaves ∧
      (Game.ev c ins s0 k).pairs =
        Hits.pairs (Game.steps c ins s0 k).hits
          ((Game.steps c ins s0 k).targets.update (ins k).draw).1
          ((Game.steps c ins s0 k).bullets.update
            ((Game.steps c ins s0 k).avatar.update (ins k).move).x) := by
  constructor
  · rw [Game.ev]
    simp only [Game.update, hq, Bool.false_eq_true, if_false]
    simp [Targets.update, Wave2.update]
  · rw [Game.ev]
    simp [Game.update, hq, Hits.update]

theorem hits2_t_fields (h : Shooter.Hits) (t : Targets) (b : Bullets) :
    (Hits.update h t b).2.1.w.born = t.w.born ∧
      (Hits.update h t b).2.1.w.ialive = t.w.ialive ∧
      (Hits.update h t b).2.1.w.nalive = t.w.nalive ∧
      (Hits.update h t b).2.1.w.tbeg = t.w.tbeg ∧
      (Hits.update h t b).2.1.w.tend = t.w.tend :=
  ⟨rfl, rfl, rfl, rfl, rfl⟩

theorem hits2_alive_t (h : Shooter.Hits) (t : Targets) (b : Bullets) (i : ℕ) :
    (Hits.update h t b).2.1.w.alive i =
      if (Hits.pairs h t b).any (fun p => t.w.ialive p.1 == i) then false
      else t.w.alive i := rfl

theorem hits2_score (h : Shooter.Hits) (t : Targets) (b : Bullets) :
    (Hits.update h t b).1.score = h.score + (Hits.pairs h t b).length := rfl

theorem Targets.update_score2 (t : Targets) (d : TDraw) :
    (t.update d).1.score =
      if (t.w.update (targetNC t.w.N d) none).2 then t.score + 1 else t.score := rfl

theorem pairs2_fst_lt (h : Shooter.Hits) (t : Targets) (b : Bullets) :
    ∀ p ∈ Hits.pairs h t b, p.1 < t.w.nalive := by
  intro p hp
  unfold Hits.pairs at hp
  rw [List.mem_flatMap] at hp
  obtain ⟨i, hi, hp⟩ := hp
  rw [List.mem_filterMap] at hp
  obtain ⟨j, hj, hp⟩ := hp
  rw [List.mem_range] at hi
  simp only at hp
  split_ifs at hp
  · cases hp
    exact hi

theorem born_listed_mem (v : Wave2) (a : ℕ) (ha : a < v.nalive) :
    v.born (v.ialive a) ∈ v.currentBorns := by
  rw [Wave2.currentBorns]
  exact List.mem_map_of_mem v.born ((mem_current v _).mpr ⟨a, ha, rfl⟩)

theorem listed_born_after_update (w : Wave2) (nc : NC) (e : Option ℚ) (hw : w.WF)
    (g : ℤ) (hg : g ∈ (w.update nc e).1.currentBorns) :
    (∃ x ∈ w.current, w.alive x = true ∧ w.born x = g) ∨ g = w.tborn := by
  rw [currentBorns_update] at hg
  obtain ⟨x, hx, hbx⟩ := List.mem_map.mp hg
  have hxk : x ∈ w.keep ∨ (w.tborn = w.tend ∧ x = w.nborn) := by
    split_ifs at hx with hadm
    · rcases List.mem_append.mp hx with h | h
      · exact Or.inl h
      · exact Or.inr ⟨hadm, List.mem_singleton.mp h⟩
    · exact Or.inl hx
  rcases hxk with hxk | ⟨hadm, rfl⟩
  · obtain ⟨halx, a, ha, hax⟩ := keep_mem w x hxk
    exact Or.inl ⟨x, (mem_current w x).mpr ⟨a, ha, hax⟩, halx, hbx⟩
  · right
    rw [← hbx]
    exact (hw.2.2.2.2.2.2.2.2.2.1).symm

end Shooter2

namespace Shooter2

theorem v2_log_invariant (c : Shooter.Cfg) (ins : ℕ → In2) (s0 : GState)
    (hs0 : s0.WFstate) (hd : ∀ j, (ins j).draw.Pos) : ∀ k : ℕ,
    (∀ g ∈ Game.missLog c ins s0 k, g < (Game.steps c ins s0 k).targets.w.tbeg) ∧
      (∀ g ∈ Game.hitLog c ins s0 k, g < (Game.steps c ins s0 k).targets.w.tend) ∧
      (∀ g ∈ Game.hitLog c ins s0 k, ∀ a : ℕ,
        a < (Game.steps c ins s0 k).targets.w.nalive →
        (Game.steps c ins s0 k).targets.w.born
          ((Game.steps c ins s0 k).targets.w.ialive a) = g →
        (Game.steps c ins s0 k).targets.w.alive
          ((Game.steps c ins s0 k).targets.w.ialive a) = false) ∧
      (∀ g : ℤ, ¬(g ∈ Game.missLog c ins s0 k ∧ g ∈ Game.hitLog c ins s0 k)) := by
  intro k
  induction k with
  | zero =>
    refine ⟨?_, ?_, ?_, ?_⟩ <;> simp [Game.missLog, Game.hitLog]
  | succ k ih =>
    obtain ⟨ih1, ih2, ih3, ih4⟩ := ih
    by_cases hq : (ins k).quit
    · obtain ⟨hTq, _, _⟩ := Game.update_quit_components c (ins k) (Game.steps c ins s0 k) hq
      have hml : Game.missLog c ins s0 (k + 1) = Game.missLog c ins s0 k := by
        simp [Game.missLog, Game.ev2_quit c ins s0 k hq]
      have hhl : Game.hitLog c ins s0 (k + 1) = Game.hitLog c ins s0 k := by
        simp [Game.hitLog, Game.ev2_quit c ins s0 k hq]
      rw [Game.steps2_succ, hTq, hml, hhl]
      exact ⟨ih1, ih2, ih3, ih4⟩
    · rw [Bool.not_eq_true] at hq
      set s := Game.steps c ins s0 k with hs
      have hW := WFstate_steps c ins s0 hs0 hd k
      rw [← hs] at hW
      have hSW : s.targets.w.WF := hW.1
      set s1 := (s.targets.update (ins k).draw).1 with hs1
      set b1 := s.bullets.update ((s.avatar.update (ins k).move).x) with hb1
      set ps := Hits.pairs s.hits s1 b1 with hps
      set w1 := (s.targets.w.update (targetNC s.targets.w.N (ins k).draw) none).1 with hw1e
      have hs1w : s1.w = w1 := Targets.update_wt s.targets (ins k).draw
      have hw1 : w1.WF :=
        WF_update s.targets.w (targetNC s.targets.w.N (ins k).draw) none hSW
          (targetNC_fresh s.targets.w.N (ins k).draw (hd k))
      have hmiss := (Game.ev2_nonquit c ins s0 k hq).1
      have hpairsE := (Game.ev2_nonquit c ins s0 k hq).2
      rw [← hs] at hmiss hpairsE
      rw [← hs1, ← hb1, ← hps] at hpairsE
      have hT' : (Game.steps c ins s0 (k + 1)).targets = (Hits.update s.hits s1 b1).2.1 := by
        rw [Game.steps2_succ, ← hs]
        exact Game.update_targets c (ins k) s hq
      have hbF : (Game.steps c ins s0 (k + 1)).targets.w.born = w1.born := by
        rw [hT', (hits2_t_fields s.hits s1 b1).1, hs1w]
      have hiF : (Game.steps c ins s0 (k + 1)).targets.w.ialive = w1.ialive := by
        rw [hT', (hits2_t_fields s.hits s1 b1).2.1, hs1w]
      have hnF : (Game.steps c ins s0 (k + 1)).targets.w.nalive = w1.nalive := by
        rw [hT', (hits2_t_fields s.hits s1 b1).2.2.1, hs1w]
      have htbF : (Game.steps c ins s0 (k + 1)).targets.w.tbeg = w1.tbeg := by
        rw [hT', (hits2_t_fields s.hits s1 b1).2.2.2.1, hs1w]
      have hteF : (Game.steps c ins s0 (k + 1)).targets.w.tend = w1.tend := by
        rw [hT', (hits2_t_fields s.hits s1 b1).2.2.2.2, hs1w]
      have haF : ∀ i, (Game.steps c ins s0 (k + 1)).targets.w.alive i =
          if ps.any (fun p => w1.ialive p.1 == i) then false else w1.alive i := by
        intro i
        rw [hT', hits2_alive_t, ← hps, hs1w]
      have htb1 : w1.tbeg = s.targets.w.tbeg + 1 := update_tbeg _ _ _
      have hte1 : w1.tend = s.targets.w.tend + 1 := update_tend _ _ _
      have hml : Game.missLog c ins s0 (k + 1) = Game.missLog c ins s0 k ++
          (if s.targets.w.frontLeaves then [s.targets.w.tbeg] else []) := by
        simp only [Game.missLog, hmiss, ← hs]
      have hhl : Game.hitLog c ins s0 (k + 1) = Game.hitLog c ins s0 k ++
          ps.map (fun p => w1.born (w1.ialive p.1)) := by
        simp only [Game.hitLog, hpairsE, ← hs, ← hs1, hs1w]
      refine ⟨?_, ?_, ?_, ?_⟩
      · rw [hml, htbF, htb1]
        intro g hg
        rw [List.mem_append] at hg
        rcases hg with hg | hg
        · have := ih1 g hg
          omega
        · split_ifs at hg with hv
          · simp at hg
            omega
          · simp at hg
      · rw [hhl, hteF, hte1]
        intro g hg
        rw [List.mem_append] at hg
        rcases hg with hg | hg
        · have := ih2 g hg
          omega
        · obtain ⟨p, hp, rfl⟩ := List.mem_map.mp hg
          have hp1 : p.1 < w1.nalive := by
            have := pairs2_fst_lt s.hits s1 b1 p (by rw [hps] at hp; exact hp)
            rwa [hs1w] at this
          have h7 := hw1.2.2.2.2.2.2.1 p.1 hp1
          omega
      · rw [hhl]
        intro g hg a ha hborn
        rw [hnF] at ha
        rw [hbF, hiF] at hborn
        rw [hiF, haF]
        rw [List.mem_append] at hg
        rcases hg with hg | hg
        · exfalso
          have hmem : g ∈ w1.currentBorns := by
            rw [← hborn]
            exact born_listed_mem w1 a ha
          rcases listed_born_after_update s.targets.w
              (targetNC s.targets.w.N (ins k).draw) none hSW g hmem with
            ⟨x, hx, halx, hbx⟩ | hgt
          · obtain ⟨bidx, hbidx, hbeq⟩ := (mem_current s.targets.w x).mp hx
            have hdead := ih3 g hg bidx hbidx (by rw [hbeq]; exact hbx)
            rw [hbeq] at hdead
            rw [hdead] at halx
            exact Bool.noConfusion halx
          · have h9 := hSW.2.2.2.2.2.2.2.2.1
            have := ih2 g hg
            omega
        · obtain ⟨p, hp, hpe⟩ := List.mem_map.mp hg
          have hp1 : p.1 < w1.nalive := by
            have := pairs2_fst_lt s.hits s1 b1 p (by rw [hps] at hp; exact hp)
            rwa [hs1w] at this
          have h6 := hw1.2.2.2.2.2.1
          have hap : a = p.1 := by
            by_contra hne
            rcases Nat.lt_or_ge a p.1 with hlt | hge
            · have := h6 a p.1 hlt hp1
              rw [hborn, hpe] at this
              omega
            · have hlt : p.1 < a := by omega
              have := h6 p.1 a hlt ha
              rw [hborn, hpe] at this
              omega
          have hcond : ps.any (fun q => w1.ialive q.1 == w1.ialive p.1) = true := by
            rw [List.any_eq_true]
            exact ⟨p, hp, beq_self_eq_true _⟩
          rw [hap, if_pos hcond]
      · intro g hgb
        obtain ⟨hgm, hgh⟩ := hgb
        rw [hml, List.mem_append] at hgm
        rw [hhl, List.mem_append] at hgh
        rcases hgm with hgm | hgm
        · rcases hgh with hgh | hgh
          · exact ih4 g ⟨hgm, hgh⟩
          · have h1 := ih1 g hgm
            obtain ⟨p, hp, hpe⟩ := List.mem_map.mp hgh
            have hp1 : p.1 < w1.nalive := by
              have := pairs2_fst_lt s.hits s1 b1 p (by rw [hps] at hp; exact hp)
              rwa [hs1w] at this
            have h7 := hw1.2.2.2.2.2.2.1 p.1 hp1
            omega
        · have hgv : s.targets.w.frontLeaves = true ∧ g = s.targets.w.tbeg := by
            by_cases hv : s.targets.w.frontLeaves
            · simp [hv] at hgm
              exact ⟨hv, hgm⟩
            · simp [hv] at hgm
          obtain ⟨hfl, rfl⟩ := hgv
          obtain ⟨hne0, hb0, hal0⟩ := (frontLeaves_iff s.targets.w).mp hfl
          rcases hgh with hgh | hgh
          · have hdead := ih3 _ hgh 0 (by omega) hb0
            rw [hdead] at hal0
            exact Bool.noConfusion hal0
          · obtain ⟨p, hp, hpe⟩ := List.mem_map.mp hgh
            have hp1 : p.1 < w1.nalive := by
              have := pairs2_fst_lt s.hits s1 b1 p (by rw [hps] at hp; exact hp)
              rwa [hs1w] at this
            have h7 := hw1.2.2.2.2.2.2.1 p.1 hp1
            omega

end Shooter2

namespace Shooter

theorem Game.update_hits1 (c : Cfg) (inp : In1) (s : GState) (hq : inp.quit = false) :
    (Game.update c inp s).1.hits =
      (s.hits.update (s.targets.update inp.page).1
        (s.bullets.update (s.avatar.update inp.move).x)).1 := by
  simp [Game.update, hq]

theorem v1_scoreSum_step (c : Cfg) (inp : In1) (s : GState) :
    s.scoreSum ≤ (Game.update c inp s).1.scoreSum := by
  by_cases hq : inp.quit
  · simp [Game.update, hq, GState.scoreSum]
  · rw [Bool.not_eq_true] at hq
    rw [GState.scoreSum, GState.scoreSum, Game.update_targets1 c inp s hq,
      Game.update_hits1 c inp s hq, Hits.update_score, (Hits.update_t _ _ _).2.2.1]
    by_cases hsw : s.targets.n + 1 = s.targets.N
    · rw [(Targets.update_swap s.targets inp.page hsw).2.2.2.1]
      split_ifs <;> omega
    · rw [(Targets.update_noswap s.targets inp.page hsw).2.2.2.1]
      split_ifs <;> omega

theorem v1_scoreSum_mono (c : Cfg) (ins : ℕ → In1) (s0 : GState) :
    ∀ j k : ℕ, j ≤ k →
      (Game.steps c ins s0 j).scoreSum ≤ (Game.steps c ins s0 k).scoreSum := by
  intro j k hjk
  induction k with
  | zero =>
    rw [Nat.le_zero.mp hjk]
  | succ k ih =>
    rcases Nat.lt_or_ge j (k + 1) with h | h
    · exact le_trans (ih (by omega))
        (by rw [Game.steps_succ]; exact v1_scoreSum_step c (ins k) _)
    · rw [Nat.le_antisymm hjk h]

end Shooter

namespace Shooter2

theorem Game.update_hits2 (c : Shooter.Cfg) (inp : In2) (s : GState)
    (hq : inp.quit = false) :
    (Game.update c inp s).1.hits =
      (Hits.update s.hits (s.targets.update inp.draw).1
        (s.bullets.update (s.avatar.update inp.move).x)).1 := by
  simp [Game.update, hq]

theorem v2_scoreSum_step (c : Shooter.Cfg) (inp : In2) (s : GState) :
    s.scoreSum ≤ (Game.update c inp s).1.scoreSum := by
  by_cases hq : inp.quit
  · simp [Game.update, hq, GState.scoreSum]
  · rw [Bool.not_eq_true] at hq
    rw [GState.scoreSum, GState.scoreSum, Game.update_targets c inp s hq,
      Game.update_hits2 c inp s hq, hits2_score, (hits2_targets_rest _ _ _).1,
      Targets.update_score2]
    split_ifs <;> omega

theorem v2_scoreSum_mono (c : Shooter.Cfg) (ins : ℕ → In2) (s0 : GState) :
    ∀ j k : ℕ, j ≤ k →
      (Game.steps c ins s0 j).scoreSum ≤ (Game.steps c ins s0 k).scoreSum := by
  intro j k hjk
  induction k with
  | zero =>
    rw [Nat.le_zero.mp hjk]
  | succ k ih =>
    rcases Nat.lt_or_ge j (k + 1) with h | h
    · exact le_trans (ih (by omega))
        (by rw [Game.steps2_succ]; exact v2_scoreSum_step c (ins k) _)
    · rw [Nat.le_antisymm hjk h]

end Shooter2

/-- C3.  Conservation in both variants: along every run of frame updates
the combined score `hits.score + targets.score` never decreases, and no
individual sprite is counted in both scores — the per-sprite logs of
misses and hits (v1: global birth indices, v2: birth frames, both unique
per sprite over a run) are disjoint.  The v1 disjointness holds along runs
whose start state keeps the window cursor inside the window and not ahead
of the frame counter; the v2 disjointness holds along runs from a
well-formed state under positive geometric draws.  Both families of side
conditions hold at the respective constructed start states. -/
theorem C3_conservation :
    (∀ (c : Shooter.Cfg) (ins : ℕ → Shooter.In1) (s0 : Shooter.GState),
      (∀ j k : ℕ, j ≤ k → (Shooter.Game.steps c ins s0 j).scoreSum ≤
        (Shooter.Game.steps c ins s0 k).scoreSum) ∧
      (s0.targets.n < s0.targets.N → s0.targets.n ≤ s0.nstep →
        ∀ (k g : ℕ), ¬(g ∈ Shooter.Game.missLog c ins s0 k ∧
          g ∈ Shooter.Game.hitLog c ins s0 k))) ∧
    (∀ (c : Shooter.Cfg) (ins : ℕ → Shooter2.In2) (s0 : Shooter2.GState),
      (∀ j k : ℕ, j ≤ k → (Shooter2.Game.steps c ins s0 j).scoreSum ≤
        (Shooter2.Game.steps c ins s0 k).scoreSum) ∧
      (s0.WFstate → (∀ j, (ins j).draw.Pos) →
        ∀ (k : ℕ) (g : ℤ), ¬(g ∈ Shooter2.Game.missLog c ins s0 k ∧
          g ∈ Shooter2.Game.hitLog c ins s0 k))) := by
  constructor
  · intro c ins s0
    refine ⟨Shooter.v1_scoreSum_mono c ins s0, ?_⟩
    intro h1 h2 k g
    exact (Shooter.v1_log_invariant c ins s0 h1 h2 k).2.2.2.2.2.2 g
  · intro c ins s0
    refine ⟨Shooter2.v2_scoreSum_mono c ins s0, ?_⟩
    intro hwf hdp k g
    exact (Shooter2.v2_log_invariant c ins s0 hwf hdp k).2.2.2 g

/-- Witness for C3: at the hand-built v1 start state and the constructed
v2 start state the side conditions hold concretely, and the conservation
theorem instantiates to two-step runs of each variant. -/
theorem C3_conservation_witness :
    (ShooterEx.exG1.targets.n < ShooterEx.exG1.targets.N ∧
      ShooterEx.exG1.targets.n ≤ ShooterEx.exG1.nstep ∧
      (Shooter.Game.steps ShooterEx.exCfgHit ShooterEx.exInsRun ShooterEx.exG1 1).scoreSum ≤
        (Shooter.Game.steps ShooterEx.exCfgHit ShooterEx.exInsRun ShooterEx.exG1 2).scoreSum ∧
      ¬(0 ∈ Shooter.Game.missLog ShooterEx.exCfgHit ShooterEx.exInsRun ShooterEx.exG1 2 ∧
        0 ∈ Shooter.Game.hitLog ShooterEx.exCfgHit ShooterEx.exInsRun ShooterEx.exG1 2)) ∧
    (ShooterEx.exS2Hit.WFstate ∧
      (∀ j, (ShooterEx.exIns2 j).draw.Pos) ∧
      (Shooter2.Game.steps ShooterEx.exCfgHit ShooterEx.exIns2 ShooterEx.exS2Hit 1).scoreSum ≤
        (Shooter2.Game.steps ShooterEx.exCfgHit ShooterEx.exIns2 ShooterEx.exS2Hit 2).scoreSum ∧
      ¬((0 : ℤ) ∈ Shooter2.Game.missLog ShooterEx.exCfgHit ShooterEx.exIns2 ShooterEx.exS2Hit 2 ∧
        (0 : ℤ) ∈ Shooter2.Game.hitLog ShooterEx.exCfgHit ShooterEx.exIns2 ShooterEx.exS2Hit 2)) := by
  have hn1 : ShooterEx.exG1.targets.n < ShooterEx.exG1.targets.N := by decide
  have hn2 : ShooterEx.exG1.targets.n ≤ ShooterEx.exG1.nstep := by decide
  have hdp : ∀ j, (ShooterEx.exIns2 j).draw.Pos := by
    intro j
    unfold Shooter2.TDraw.Pos
    intro k
    norm_num [ShooterEx.exIns2, ShooterEx.exDraw]
  have hwf : ShooterEx.exS2Hit.WFstate :=
    Shooter2.WFstate_init ShooterEx.exCfgHit ShooterEx.exDraw
      (by norm_num [ShooterEx.exCfgHit])
      (by norm_num [ShooterEx.exCfgHit])
      (by norm_num [Shooter.pyInt, ShooterEx.exCfgHit])
      (hdp 0)
  refine ⟨⟨hn1, hn2, ?_, ?_⟩, ⟨hwf, hdp, ?_, ?_⟩⟩
  · exact (C3_conservation.1 ShooterEx.exCfgHit ShooterEx.exInsRun ShooterEx.exG1).1 1 2
      (by decide)
  · exact (C3_conservation.1 ShooterEx.exCfgHit ShooterEx.exInsRun ShooterEx.exG1).2 hn1 hn2 2 0
  · exact (C3_conservation.2 ShooterEx.exCfgHit ShooterEx.exIns2 ShooterEx.exS2Hit).1 1 2
      (by decide)
  · exact (C3_conservation.2 ShooterEx.exCfgHit ShooterEx.exIns2 ShooterEx.exS2Hit).2 hwf hdp 2 0
